import Mathlib

/-
Verification of the combustion-air / exhaust-gas flow calculator.

The source is a single Python file defining `FuelGasCombustionCalculator`
with methods `calculate_molar_flow`, `calculate_stoichiometric_o2`,
`calculate_air_requirement` (bisection over O2 supply, with the nested
helper `calculate_total_exhaust`) and `calculate_exhaust_gas`.

Embedding conventions:
  - Python floats are modelled as exact rationals (ℚ); decimal literals of
    the source become the corresponding rationals (e.g. 16.04 = 1604/100).
  - Python dicts keyed by species strings become a `Comp` structure: a
    presence predicate plus a fraction table.  A subscript access
    `composition[k]` is modelled by `getKey`, which fails with
    `Err.keyError` exactly when the key is absent, as in Python.
  - Division by a computed quantity is modelled by `qdiv`, which fails with
    `Err.divByZero` exactly when Python would raise ZeroDivisionError.
    Division by the nonzero literal constants 0.21/0.79 is plain division.
  - The unbounded `while` loop of the bisection is modelled by `bisect`,
    a fuel-indexed recursion.  Running out of fuel yields the sentinel
    `Err.outOfFuel`; the caller passes `nIter` of the initial bracket
    width, and the development proves the sentinel is never reached (the
    loop terminates within that halving bound), so the embedding computes
    exactly what the Python loop computes.
-/

namespace Combustion

/-- The fixed closed species set of the calculator. -/
inductive Species where
  | CH4 | C2H6 | C3H8 | C6H6 | He | N2 | H2O | H2S | O2 | CO2 | SO2
deriving DecidableEq, Repr, Fintype

open Species

/-- Molecular weights (kg/kmol), from `self.MW` in the source. -/
def MW : Species → ℚ
  | .CH4 => 1604/100
  | .C2H6 => 3007/100
  | .C3H8 => 4410/100
  | .C6H6 => 7811/100
  | .He => 4003/1000
  | .N2 => 2801/100
  | .H2O => 1802/100
  | .H2S => 3408/100
  | .O2 => 32
  | .CO2 => 4401/100
  | .SO2 => 6406/100

/-- O2 moles consumed per mole of fuel species, from `self.o2_requirement`.
`none` marks species absent from that dict. -/
def o2_requirement : Species → Option ℚ
  | .CH4 => some 2
  | .C2H6 => some (7/2)
  | .C3H8 => some 5
  | .C6H6 => some (15/2)
  | .H2S => some (3/2)
  | _ => none

/-- CO2 produced per mole of fuel species, from `self.co2_production`. -/
def co2_production : Species → Option ℚ
  | .CH4 => some 1
  | .C2H6 => some 2
  | .C3H8 => some 3
  | .C6H6 => some 6
  | _ => none

/-- H2O produced per mole of fuel species, from `self.h2o_production`. -/
def h2o_production : Species → Option ℚ
  | .CH4 => some 2
  | .C2H6 => some 3
  | .C3H8 => some 4
  | .C6H6 => some 3
  | .H2S => some 1
  | _ => none

/-- SO2 produced per mole of fuel species, from `self.so2_production`. -/
def so2_production : Species → Option ℚ
  | .H2S => some 1
  | _ => none

/-- `self.air_o2_ratio = 0.21`. -/
def airO2Ratio : ℚ := 21/100

/-- `self.air_n2_ratio = 0.79`. -/
def airN2Ratio : ℚ := 79/100

/-- A fuel composition dict: which species keys are present, and the mole
fraction stored under each present key.  `frac s` is only ever read by the
embedded code when `present s` is true, mirroring dict semantics. -/
structure Comp where
  present : Species → Bool
  frac : Species → ℚ

/-- Runtime errors of the Python program: `KeyError` on a missing dict key,
`ZeroDivisionError`, plus the embedding-only fuel sentinel for the
bisection loop (proved unreachable). -/
inductive Err where
  | keyError (s : Species)
  | divByZero
  | outOfFuel
deriving DecidableEq, Repr

/-- Dict subscript access `composition[s]`. -/
def getKey (c : Comp) (s : Species) : Except Err ℚ :=
  if c.present s then .ok (c.frac s) else .error (.keyError s)

/-- Division raising ZeroDivisionError on a zero denominator, as in Python. -/
def qdiv (a b : ℚ) : Except Err ℚ :=
  if b = 0 then .error .divByZero else .ok (a / b)

/-- Sum of a function over the whole (closed) species set.  Python sums over
dict items; summing a per-species term that is zero at absent keys over all
eleven species yields the same rational value. -/
def sumSpecies (g : Species → ℚ) : ℚ :=
  g .CH4 + g .C2H6 + g .C3H8 + g .C6H6 + g .He + g .N2 + g .H2O + g .H2S +
    g .O2 + g .CO2 + g .SO2

/-- `calculate_molar_flow`: average molecular weight of the composition,
`sum(comp * MW[gas] for gas, comp in composition.items())`. -/
def avgMW (c : Comp) : ℚ :=
  sumSpecies (fun s => if c.present s then c.frac s * MW s else 0)

/-- `calculate_molar_flow(mass_flow, composition) = mass_flow / avg_MW`
(ZeroDivisionError when the average molecular weight is zero). -/
def calculate_molar_flow (mass_flow : ℚ) (c : Comp) : Except Err ℚ :=
  qdiv mass_flow (avgMW c)

/-- `calculate_stoichiometric_o2`: total O2 demand, summing
`fuel_molar_flow * fraction * o2_requirement[fuel]` over composition keys
that have an O2 coefficient. -/
def calculate_stoichiometric_o2 (fuel_molar_flow : ℚ) (c : Comp) : ℚ :=
  sumSpecies (fun s =>
    if c.present s then fuel_molar_flow * c.frac s * (o2_requirement s).getD 0 else 0)

/-- CO2 production sum of the mass balance (`co2_total` / `co2_flow`). -/
def co2S (fuel_molar_flow : ℚ) (c : Comp) : ℚ :=
  sumSpecies (fun s =>
    if c.present s then fuel_molar_flow * c.frac s * (co2_production s).getD 0 else 0)

/-- Combustion-produced H2O sum of the mass balance. -/
def h2oS (fuel_molar_flow : ℚ) (c : Comp) : ℚ :=
  sumSpecies (fun s =>
    if c.present s then fuel_molar_flow * c.frac s * (h2o_production s).getD 0 else 0)

/-- SO2 production sum of the mass balance. -/
def so2S (fuel_molar_flow : ℚ) (c : Comp) : ℚ :=
  sumSpecies (fun s =>
    if c.present s then fuel_molar_flow * c.frac s * (so2_production s).getD 0 else 0)

/-- The nested helper `calculate_total_exhaust(o2_supply)` of
`calculate_air_requirement`: returns
`(total exhaust molar flow, residual O2 molar flow)`.
It reads `fuel_composition["H2O"]`, `["He"]` and `["N2"]` unconditionally,
in that order, so a composition missing one of those keys raises KeyError. -/
def calculate_total_exhaust (fuel_molar_flow : ℚ) (c : Comp)
    (theoretical_o2 o2_supply : ℚ) : Except Err (ℚ × ℚ) :=
  match getKey c .H2O with
  | .error e => .error e
  | .ok h2o_frac =>
    match getKey c .He with
    | .error e => .error e
    | .ok he_frac =>
      match getKey c .N2 with
      | .error e => .error e
      | .ok n2_frac =>
        let co2_total := co2S fuel_molar_flow c
        let h2o_total := fuel_molar_flow * h2o_frac + h2oS fuel_molar_flow c
        let so2_total := so2S fuel_molar_flow c
        let he_flow := fuel_molar_flow * he_frac
        let n2_total := o2_supply / airO2Ratio * airN2Ratio + fuel_molar_flow * n2_frac
        let o2_remaining := o2_supply - theoretical_o2
        .ok (co2_total + h2o_total + so2_total + he_flow + n2_total + o2_remaining,
          o2_remaining)

/-- The loop exit threshold `1e-6` of `while (o2_high - o2_low) > 1e-6`. -/
def bisectTol : ℚ := 1/1000000

/-- Fuel bound for the bisection loop: enough halvings to shrink a bracket
of width `w` below `bisectTol` (since `n < 2 ^ n`, the value
`⌈w / bisectTol⌉ + 1` certainly suffices).  Purely an embedding bound; the
development proves it is never exhausted. -/
def nIter (w : ℚ) : ℕ := Nat.ceil (w * 1000000) + 1

/-- The bisection `while` loop of `calculate_air_requirement`, indexed by
fuel.  Each iteration evaluates the mass balance at the midpoint, computes
`current_o2_ratio = o2_remaining / total_exhaust`, and halves the bracket:
lower bound raised when the ratio is below target, else upper bound
lowered.  Exits with the current `o2_high` when the bracket width is no
longer above `1e-6`. -/
def bisect (fuel_molar_flow : ℚ) (c : Comp) (theoretical_o2 target_o2_ratio : ℚ) :
    ℕ → ℚ → ℚ → Except Err ℚ
  | 0, o2_low, o2_high =>
    if o2_high - o2_low > bisectTol then .error .outOfFuel else .ok o2_high
  | n + 1, o2_low, o2_high =>
    if o2_high - o2_low > bisectTol then
      match calculate_total_exhaust fuel_molar_flow c theoretical_o2
          ((o2_low + o2_high) / 2) with
      | .error e => .error e
      | .ok te =>
        match qdiv te.2 te.1 with
        | .error e => .error e
        | .ok current_o2_ratio =>
          if current_o2_ratio < target_o2_ratio then
            bisect fuel_molar_flow c theoretical_o2 target_o2_ratio n
              ((o2_low + o2_high) / 2) o2_high
          else
            bisect fuel_molar_flow c theoretical_o2 target_o2_ratio n
              o2_low ((o2_low + o2_high) / 2)
    else .ok o2_high

/-- `calculate_air_requirement`: bisection on `[theoretical_o2, theoretical_o2 * 5]`,
returning `required_o2 / 0.21`. -/
def calculate_air_requirement (fuel_molar_flow : ℚ) (c : Comp)
    (target_o2_ratio : ℚ) : Except Err ℚ :=
  let theoretical_o2 := calculate_stoichiometric_o2 fuel_molar_flow c
  let o2_low := theoretical_o2
  let o2_high := theoretical_o2 * 5
  match bisect fuel_molar_flow c theoretical_o2 target_o2_ratio
      (nIter (o2_high - o2_low)) o2_low o2_high with
  | .error e => .error e
  | .ok required_o2 => .ok (required_o2 / airO2Ratio)

/-- The result dict of `calculate_exhaust_gas`: the six exhaust composition
percentages, the six per-species mass flows (kg/s), the total exhaust mass
flow and the air mass flow. -/
structure ExhaustResult where
  compCO2 : ℚ
  compH2O : ℚ
  compSO2 : ℚ
  compHe : ℚ
  compO2 : ℚ
  compN2 : ℚ
  massCO2 : ℚ
  massH2O : ℚ
  massSO2 : ℚ
  massHe : ℚ
  massO2 : ℚ
  massN2 : ℚ
  total_mass_flow : ℚ
  air_flow : ℚ
deriving DecidableEq, Repr

/-- `calculate_exhaust_gas(fuel_mass_flow, fuel_composition, target_o2_ratio,
excess_air_ratio=1.0)`.  The `excess_air_ratio` parameter is accepted but
never read, exactly as in the source. -/
def calculate_exhaust_gas (fuel_mass_flow : ℚ) (c : Comp)
    (target_o2_ratio : ℚ) (excess_air_ratio : ℚ) : Except Err ExhaustResult :=
  match calculate_molar_flow fuel_mass_flow c with
  | .error e => .error e
  | .ok fuel_molar_flow =>
    match calculate_air_requirement fuel_molar_flow c target_o2_ratio with
    | .error e => .error e
    | .ok required_air =>
      let o2_flow := required_air * airO2Ratio
      let n2_air_flow := required_air * airN2Ratio
      let co2_flow := co2S fuel_molar_flow c
      match getKey c .H2O with
      | .error e => .error e
      | .ok h2o_frac =>
        let h2o_flow := fuel_molar_flow * h2o_frac + h2oS fuel_molar_flow c
        let so2_flow := so2S fuel_molar_flow c
        match getKey c .He with
        | .error e => .error e
        | .ok he_frac =>
          let he_flow := fuel_molar_flow * he_frac
          let theoretical_o2 := calculate_stoichiometric_o2 fuel_molar_flow c
          let o2_remaining := o2_flow - theoretical_o2
          match getKey c .N2 with
          | .error e => .error e
          | .ok n2_frac =>
            let n2_total_flow := n2_air_flow + fuel_molar_flow * n2_frac
            let total_exhaust_flow :=
              co2_flow + h2o_flow + so2_flow + he_flow + o2_remaining + n2_total_flow
            if total_exhaust_flow = 0 then .error .divByZero
            else
              .ok ⟨co2_flow / total_exhaust_flow * 100,
                h2o_flow / total_exhaust_flow * 100,
                so2_flow / total_exhaust_flow * 100,
                he_flow / total_exhaust_flow * 100,
                o2_remaining / total_exhaust_flow * 100,
                n2_total_flow / total_exhaust_flow * 100,
                co2_flow * MW .CO2,
                h2o_flow * MW .H2O,
                so2_flow * MW .SO2,
                he_flow * MW .He,
                o2_remaining * MW .O2,
                n2_total_flow * MW .N2,
                co2_flow * MW .CO2 + h2o_flow * MW .H2O + so2_flow * MW .SO2 +
                  he_flow * MW .He + o2_remaining * MW .O2 + n2_total_flow * MW .N2,
                required_air * (MW .O2 * airO2Ratio + MW .N2 * airN2Ratio)⟩

/-! Spec-level derived definitions used to state properties.  These are not
re-translations of the source: each is proved to agree with the source
functions above (on the success path) by lemmas below. -/

/-- Sum of the fractions stored under present keys (the spec's
`FuelComposition` precondition requires this to be 1). -/
def fracSum (c : Comp) : ℚ :=
  sumSpecies (fun s => if c.present s then c.frac s else 0)

/-- Pure total-exhaust value of `calculate_total_exhaust` at O2 supply `x`
(defined when the H2O/He/N2 keys are present). -/
def exhaustTotalPure (fuel_molar_flow : ℚ) (c : Comp) (theoretical_o2 x : ℚ) : ℚ :=
  co2S fuel_molar_flow c +
    (fuel_molar_flow * c.frac .H2O + h2oS fuel_molar_flow c) +
    so2S fuel_molar_flow c + fuel_molar_flow * c.frac .He +
    (x / airO2Ratio * airN2Ratio + fuel_molar_flow * c.frac .N2) +
    (x - theoretical_o2)

/-- Residual-O2 mole fraction of the exhaust at O2 supply `x`. -/
def exhaustRatio (fuel_molar_flow : ℚ) (c : Comp) (theoretical_o2 x : ℚ) : ℚ :=
  (x - theoretical_o2) / exhaustTotalPure fuel_molar_flow c theoretical_o2 x

/-- The total exhaust molar flow computed by the composer from molar fuel
flow `f` and air molar flow `A`. -/
def totalFlow (f A : ℚ) (c : Comp) : ℚ :=
  co2S f c + (f * c.frac .H2O + h2oS f c) + so2S f c + f * c.frac .He +
    (A * airO2Ratio - calculate_stoichiometric_o2 f c) +
    (A * airN2Ratio + f * c.frac .N2)

/-- The result record the composer builds from molar fuel flow `f` and air
molar flow `A` (the success value of `calculate_exhaust_gas`). -/
def mkResult (f A : ℚ) (c : Comp) : ExhaustResult :=
  let co2_flow := co2S f c
  let h2o_flow := f * c.frac .H2O + h2oS f c
  let so2_flow := so2S f c
  let he_flow := f * c.frac .He
  let o2_remaining := A * airO2Ratio - calculate_stoichiometric_o2 f c
  let n2_total_flow := A * airN2Ratio + f * c.frac .N2
  let tot := totalFlow f A c
  ⟨co2_flow / tot * 100, h2o_flow / tot * 100, so2_flow / tot * 100,
    he_flow / tot * 100, o2_remaining / tot * 100, n2_total_flow / tot * 100,
    co2_flow * MW .CO2, h2o_flow * MW .H2O, so2_flow * MW .SO2,
    he_flow * MW .He, o2_remaining * MW .O2, n2_total_flow * MW .N2,
    co2_flow * MW .CO2 + h2o_flow * MW .H2O + so2_flow * MW .SO2 +
      he_flow * MW .He + o2_remaining * MW .O2 + n2_total_flow * MW .N2,
    A * (MW .O2 * airO2Ratio + MW .N2 * airN2Ratio)⟩

/-- Mass of a fuel species passed through the exhaust unreacted: the inerts
He and N2 and pre-existing H2O; zero for everything else. -/
def inertMass : Species → ℚ
  | .He => MW .He
  | .N2 => MW .N2
  | .H2O => MW .H2O
  | _ => 0

/-- Exhaust mass produced per mole of fuel species `s`, according to the
production tables and molecular weights: CO2/H2O/SO2 products plus inert
passthrough (He, N2, pre-existing H2O), minus the O2 consumed from the air
(which entered through the air mass, not the fuel mass). -/
def exhaustMassPerMole (s : Species) : ℚ :=
  (co2_production s).getD 0 * MW .CO2 + (h2o_production s).getD 0 * MW .H2O +
    (so2_production s).getD 0 * MW .SO2 + inertMass s -
    (o2_requirement s).getD 0 * MW .O2

/-- Mass defect of the program per mole of fuel species `s`: exhaust mass
contributed minus fuel mass carried in.  Zero for exactly conserved species,
`+0.01` for the hydrocarbons (rounded molecular weights), and `-MW s` for
fuel-borne O2, CO2 and SO2, which the program drops from the exhaust. -/
def defect (s : Species) : ℚ := exhaustMassPerMole s - MW s

/-- Composition-weighted mass defect per mole of total fuel. -/
def massDefect (c : Comp) : ℚ :=
  sumSpecies (fun s => if c.present s then c.frac s * defect s else 0)

/-- Residual-O2 mole fraction implied by the returned mass flows: convert
each mass flow back to molar flow via the registry and take O2's share. -/
def impliedO2MoleFrac (r : ExhaustResult) : ℚ :=
  (r.massO2 / MW .O2) /
    (r.massCO2 / MW .CO2 + r.massH2O / MW .H2O + r.massSO2 / MW .SO2 +
      r.massHe / MW .He + r.massO2 / MW .O2 + r.massN2 / MW .N2)

/-- Indicator of a Bool as a rational, used to normalize presence-guarded
sums into products for algebraic reasoning. -/
def indQ (b : Bool) : ℚ := if b then 1 else 0

/-- All-zero result record, used as the default of `resOr`. -/
def dummyResult : ExhaustResult := ⟨0, 0, 0, 0, 0, 0, 0, 0, 0, 0, 0, 0, 0, 0⟩

/-- Extract the success value of a calculation, defaulting to zeros. -/
def resOr (x : Except Err ExhaustResult) : ExhaustResult :=
  match x with
  | .ok r => r
  | .error _ => dummyResult

/-- Whether a calculation succeeded. -/
def isOkE {α : Type} (x : Except Err α) : Bool :=
  match x with
  | .ok _ => true
  | .error _ => false

/-- The first key among H2O, He, N2 missing from the composition (the one
whose access raises the KeyError). -/
def firstMissing (c : Comp) : Species :=
  if c.present .H2O = false then .H2O
  else if c.present .He = false then .He
  else .N2

/-! Concrete compositions used as witnesses and counterexamples. -/

/-- Composition `{CH4: 1/2, H2O: 1/6, He: 1/6, N2: 1/6}` — valid per the
spec precondition, with all unconditionally-read keys present. -/
def compA : Comp :=
  ⟨fun s => match s with | .CH4 | .H2O | .He | .N2 => true | _ => false,
   fun s => match s with
     | .CH4 => 1/2 | .H2O => 1/6 | .He => 1/6 | .N2 => 1/6 | _ => 0⟩

/-- Composition `{CH4: 1/2, CO2: 1/5, H2O: 1/10, He: 1/10, N2: 1/10}` —
valid per the spec precondition; the fuel-borne CO2 is dropped by the code. -/
def compB : Comp :=
  ⟨fun s => match s with | .CH4 | .CO2 | .H2O | .He | .N2 => true | _ => false,
   fun s => match s with
     | .CH4 => 1/2 | .CO2 => 1/5 | .H2O => 1/10 | .He => 1/10 | .N2 => 1/10
     | _ => 0⟩

/-- Composition `{He: 1/2, H2O: 1/5, N2: 1/5, CO2: 1/10}` — zero combustible
content (zero theoretical O2 demand), all unconditionally-read keys present. -/
def compDegen : Comp :=
  ⟨fun s => match s with | .He | .H2O | .N2 | .CO2 => true | _ => false,
   fun s => match s with
     | .He => 1/2 | .H2O => 1/5 | .N2 => 1/5 | .CO2 => 1/10 | _ => 0⟩

/-- Composition `{CH4: 1e-7, H2O: 1/3, He: 1/3, N2: 1/3 - 1e-7}` — valid,
with so little combustible content that the initial bracket is below the
loop tolerance at unit molar flow while the exhaust flow stays near
1 mol/s. -/
def compC : Comp :=
  ⟨fun s => match s with | .CH4 | .H2O | .He | .N2 => true | _ => false,
   fun s => match s with
     | .CH4 => 1/10000000 | .H2O => 1/3 | .He => 1/3
     | .N2 => 9999997/30000000 | _ => 0⟩

/-- Composition `{CH4: 1}` — valid per the spec interface but missing the
H2O/He/N2 keys the code reads unconditionally. -/
def compMethane : Comp :=
  ⟨fun s => match s with | .CH4 => true | _ => false,
   fun s => match s with | .CH4 => 1 | _ => 0⟩

/-! ## Basic lemmas -/

/-- Normalize a presence-guarded summand into an indicator product. -/
lemma ite_indQ (b : Bool) (y : ℚ) :
    (if b = true then y else 0) = indQ b * y := by
  cases b <;> simp [indQ]

/-- Every registry weight is at least 4 kg/kmol. -/
lemma MW_ge (s : Species) : (4 : ℚ) ≤ MW s := by
  cases s <;> norm_num [MW]

/-- A sum of pointwise-nonnegative per-species terms is nonnegative. -/
lemma sumSpecies_nonneg (g : Species → ℚ) (h : ∀ s, 0 ≤ g s) :
    0 ≤ sumSpecies g := by
  unfold sumSpecies
  linarith [h .CH4, h .C2H6, h .C3H8, h .C6H6, h .He, h .N2, h .H2O, h .H2S,
    h .O2, h .CO2, h .SO2]

/-- The average molecular weight dominates 4 times the fraction sum. -/
lemma avgMW_ge (c : Comp) (hnn : ∀ s, c.present s = true → 0 ≤ c.frac s) :
    4 * fracSum c ≤ avgMW c := by
  unfold avgMW fracSum sumSpecies
  have h : ∀ s : Species,
      4 * (if c.present s then c.frac s else 0) ≤
        (if c.present s then c.frac s * MW s else 0) := by
    intro s
    by_cases hp : c.present s = true
    · simp only [hp, if_true]
      nlinarith [MW_ge s, hnn s hp]
    · simp [hp]
  linarith [h .CH4, h .C2H6, h .C3H8, h .C6H6, h .He, h .N2, h .H2O, h .H2S,
    h .O2, h .CO2, h .SO2]

/-- With nonnegative fractions summing to 1, the average molecular weight is
positive. -/
lemma avgMW_pos (c : Comp) (hnn : ∀ s, c.present s = true → 0 ≤ c.frac s)
    (hsum : fracSum c = 1) : 0 < avgMW c := by
  have := avgMW_ge c hnn
  rw [hsum] at this
  linarith

/-- All stoichiometric coefficients are nonnegative. -/
lemma o2req_nonneg (s : Species) : 0 ≤ (o2_requirement s).getD 0 := by
  cases s <;> norm_num [o2_requirement]

lemma co2prod_nonneg (s : Species) : 0 ≤ (co2_production s).getD 0 := by
  cases s <;> norm_num [co2_production]

lemma h2oprod_nonneg (s : Species) : 0 ≤ (h2o_production s).getD 0 := by
  cases s <;> norm_num [h2o_production]

lemma so2prod_nonneg (s : Species) : 0 ≤ (so2_production s).getD 0 := by
  cases s <;> norm_num [so2_production]

/-- A guarded coefficient sum is nonnegative for nonnegative molar flow. -/
lemma coefSum_nonneg (f : ℚ) (c : Comp) (k : Species → ℚ)
    (hf : 0 ≤ f) (hnn : ∀ s, c.present s = true → 0 ≤ c.frac s)
    (hk : ∀ s, 0 ≤ k s) :
    0 ≤ sumSpecies (fun s => if c.present s then f * c.frac s * k s else 0) := by
  refine sumSpecies_nonneg _ fun s => ?_
  by_cases hp : c.present s = true
  · simp only [hp, if_true]
    exact mul_nonneg (mul_nonneg hf (hnn s hp)) (hk s)
  · simp [hp]

lemma stoich_nonneg (f : ℚ) (c : Comp) (hf : 0 ≤ f)
    (hnn : ∀ s, c.present s = true → 0 ≤ c.frac s) :
    0 ≤ calculate_stoichiometric_o2 f c :=
  coefSum_nonneg f c _ hf hnn o2req_nonneg

lemma co2S_nonneg (f : ℚ) (c : Comp) (hf : 0 ≤ f)
    (hnn : ∀ s, c.present s = true → 0 ≤ c.frac s) : 0 ≤ co2S f c :=
  coefSum_nonneg f c _ hf hnn co2prod_nonneg

lemma h2oS_nonneg (f : ℚ) (c : Comp) (hf : 0 ≤ f)
    (hnn : ∀ s, c.present s = true → 0 ≤ c.frac s) : 0 ≤ h2oS f c :=
  coefSum_nonneg f c _ hf hnn h2oprod_nonneg

lemma so2S_nonneg (f : ℚ) (c : Comp) (hf : 0 ≤ f)
    (hnn : ∀ s, c.present s = true → 0 ≤ c.frac s) : 0 ≤ so2S f c :=
  coefSum_nonneg f c _ hf hnn so2prod_nonneg

/-- Success characterization of the molar flow converter. -/
lemma molar_ok_iff {m : ℚ} {c : Comp} {f : ℚ} :
    calculate_molar_flow m c = .ok f ↔ avgMW c ≠ 0 ∧ f = m / avgMW c := by
  unfold calculate_molar_flow qdiv
  split_ifs with h <;> simp [h, eq_comm]

/-- With the three unconditionally-read keys present, the mass-balance
helper succeeds and computes `exhaustTotalPure` and the residual O2. -/
lemma cte_ok {f : ℚ} {c : Comp} {θ x : ℚ}
    (h1 : c.present .H2O = true) (h2 : c.present .He = true)
    (h3 : c.present .N2 = true) :
    calculate_total_exhaust f c θ x = .ok (exhaustTotalPure f c θ x, x - θ) := by
  unfold calculate_total_exhaust getKey exhaustTotalPure
  simp [h1, h2, h3]

/-- With one of the three keys missing, the mass-balance helper raises a
KeyError on the first missing key. -/
lemma cte_missing {f : ℚ} {c : Comp} {θ x : ℚ}
    (h : ¬(c.present .H2O = true ∧ c.present .He = true ∧ c.present .N2 = true)) :
    calculate_total_exhaust f c θ x = .error (.keyError (firstMissing c)) := by
  unfold calculate_total_exhaust getKey firstMissing
  cases hp1 : c.present .H2O <;> cases hp2 : c.present .He <;>
    cases hp3 : c.present .N2 <;> simp_all

/-- Success characterization of guarded division. -/
lemma qdiv_ok_iff {a b r : ℚ} : qdiv a b = .ok r ↔ b ≠ 0 ∧ r = a / b := by
  unfold qdiv
  split_ifs with h <;> simp [h, eq_comm]

/-- Guarded division only fails with `divByZero`. -/
lemma qdiv_error {a b : ℚ} {e : Err} (h : qdiv a b = .error e) :
    e = .divByZero := by
  unfold qdiv at h
  split_ifs at h <;> simp_all [eq_comm]

/-- Success characterization of dict access. -/
lemma getKey_ok_iff {c : Comp} {s : Species} {v : ℚ} :
    getKey c s = .ok v ↔ c.present s = true ∧ v = c.frac s := by
  unfold getKey
  split_ifs with h <;> simp [h, eq_comm]

/-- The mass-balance helper only fails with a KeyError. -/
lemma cte_error_keyError {f : ℚ} {c : Comp} {θ x : ℚ} {e : Err}
    (h : calculate_total_exhaust f c θ x = .error e) : ∃ s, e = .keyError s := by
  by_cases hall : c.present .H2O = true ∧ c.present .He = true ∧
      c.present .N2 = true
  · rw [cte_ok hall.1 hall.2.1 hall.2.2] at h
    exact absurd h (by simp)
  · rw [cte_missing hall] at h
    exact ⟨firstMissing c, by simpa [eq_comm] using h⟩

/-- The total-exhaust value is affine in the O2 supply, slope `100/21`. -/
lemma exhaustTotalPure_linear (f : ℚ) (c : Comp) (θ x y : ℚ) :
    exhaustTotalPure f c θ y - exhaustTotalPure f c θ x = (y - x) * (100/21) := by
  unfold exhaustTotalPure airO2Ratio airN2Ratio
  ring

/-- The total-exhaust value is monotone in the O2 supply. -/
lemma exhaustTotalPure_mono (f : ℚ) (c : Comp) (θ : ℚ) {x y : ℚ} (h : x ≤ y) :
    exhaustTotalPure f c θ x ≤ exhaustTotalPure f c θ y := by
  have := exhaustTotalPure_linear f c θ x y
  nlinarith

/-- The fuel bound suffices: a bracket of width `w` shrinks below the
tolerance within `nIter w` halvings. -/
lemma nIter_spec (w : ℚ) : w ≤ bisectTol * 2 ^ nIter w := by
  unfold nIter bisectTol
  have h1 : w * 1000000 ≤ (Nat.ceil (w * 1000000) : ℚ) := Nat.le_ceil _
  have h2 : ((Nat.ceil (w * 1000000) : ℕ) : ℚ) ≤
      2 ^ (Nat.ceil (w * 1000000)) := by
    exact_mod_cast (Nat.lt_two_pow _).le
  rw [pow_succ]
  have h3 : (0:ℚ) ≤ 2 ^ (Nat.ceil (w * 1000000)) := by positivity
  nlinarith

/-- Unfolding equation for `bisect` at fuel 0. -/
lemma bisect_zero (f : ℚ) (c : Comp) (θ t low high : ℚ) :
    bisect f c θ t 0 low high =
      if high - low > bisectTol then .error .outOfFuel else .ok high := rfl

/-- Unfolding equation for `bisect` at successor fuel. -/
lemma bisect_succ (f : ℚ) (c : Comp) (θ t : ℚ) (n : ℕ) (low high : ℚ) :
    bisect f c θ t (n + 1) low high =
      if high - low > bisectTol then
        match calculate_total_exhaust f c θ ((low + high) / 2) with
        | .error e => .error e
        | .ok te =>
          match qdiv te.2 te.1 with
          | .error e => .error e
          | .ok current_o2_ratio =>
            if current_o2_ratio < t then
              bisect f c θ t n ((low + high) / 2) high
            else bisect f c θ t n low ((low + high) / 2)
      else .ok high := rfl

/-- Termination of the bisection loop: with the fuel covering the halving
bound, the sentinel is never reached. -/
lemma bisect_no_sentinel (f : ℚ) (c : Comp) (θ t : ℚ) :
    ∀ n low high, high - low ≤ bisectTol * 2 ^ n →
      bisect f c θ t n low high ≠ .error .outOfFuel := by
  intro n
  induction n with
  | zero =>
    intro low high hw
    rw [bisect_zero, if_neg (by simp at hw ⊢; linarith)]
    simp
  | succ k ih =>
    intro low high hw
    rw [bisect_succ]
    by_cases hc : high - low > bisectTol
    · rw [if_pos hc]
      rw [pow_succ] at hw
      cases hcte : calculate_total_exhaust f c θ ((low + high) / 2) with
      | error e =>
        obtain ⟨s, rfl⟩ := cte_error_keyError hcte
        simp
      | ok te =>
        cases hq : qdiv te.2 te.1 with
        | error e2 =>
          obtain rfl := qdiv_error hq
          simp [hq]
        | ok r =>
          by_cases hr : r < t
          · simp only [hq, if_pos hr]
            exact ih ((low + high) / 2) high (by linarith)
          · simp only [hq, if_neg hr]
            exact ih low ((low + high) / 2) (by linarith)
    · rw [if_neg hc]
      simp

/-- A successful bisection result lies between the theoretical O2 demand and
the initial upper bound. -/
lemma bisect_ok_between (f : ℚ) (c : Comp) (θ t : ℚ) :
    ∀ n low high hv, θ ≤ low → low ≤ high →
      bisect f c θ t n low high = .ok hv → θ ≤ hv ∧ hv ≤ high := by
  intro n
  induction n with
  | zero =>
    intro low high hv hθ hlh h
    rw [bisect_zero] at h
    split_ifs at h
    obtain rfl : high = hv := by simpa using h
    exact ⟨le_trans hθ hlh, le_refl _⟩
  | succ k ih =>
    intro low high hv hθ hlh h
    rw [bisect_succ] at h
    split_ifs at h with hc
    · cases hcte : calculate_total_exhaust f c θ ((low + high) / 2) with
      | error e => rw [hcte] at h; simp at h
      | ok te =>
        rw [hcte] at h
        dsimp only at h
        cases hq : qdiv te.2 te.1 with
        | error e2 => rw [hq] at h; simp at h
        | ok r =>
          rw [hq] at h
          dsimp only at h
          split_ifs at h with hr
          · have := ih ((low + high) / 2) high hv (by linarith) (by linarith) h
            exact ⟨this.1, this.2⟩
          · have := ih low ((low + high) / 2) hv hθ (by linarith) h
            exact ⟨this.1, by linarith [this.2]⟩
    · obtain rfl : high = hv := by simpa using h
      exact ⟨le_trans hθ hlh, le_refl _⟩

/-- A missing key makes dict access fail. -/
lemma getKey_missing {c : Comp} {s : Species} (h : c.present s = false) :
    getKey c s = .error (.keyError s) := by
  unfold getKey
  simp [h]

/-- When the bracket is already within tolerance, the loop exits at once
with the current upper bound, for any fuel. -/
lemma bisect_empty (f : ℚ) (c : Comp) (θ t : ℚ) (n : ℕ) (low high : ℚ)
    (hw : high - low ≤ bisectTol) :
    bisect f c θ t n low high = .ok high := by
  cases n with
  | zero => rw [bisect_zero, if_neg (by linarith)]
  | succ k => rw [bisect_succ, if_neg (by linarith)]

/-- With a key missing, the loop either exits immediately or fails with the
KeyError of the first missing key. -/
lemma bisect_missing (f : ℚ) (c : Comp) (θ t : ℚ)
    (hmiss : ¬(c.present .H2O = true ∧ c.present .He = true ∧
      c.present .N2 = true)) (n : ℕ) (low high : ℚ)
    (hw : high - low ≤ bisectTol * 2 ^ n) :
    bisect f c θ t n low high = .ok high ∨
      bisect f c θ t n low high = .error (.keyError (firstMissing c)) := by
  by_cases hc : high - low > bisectTol
  · cases n with
    | zero =>
      exfalso
      simp at hw
      linarith
    | succ k =>
      right
      rw [bisect_succ, if_pos hc, cte_missing hmiss]
  · left
    exact bisect_empty f c θ t n low high (by linarith)

/-- Success characterization of the air-requirement solver in terms of the
bisection loop. -/
lemma air_ok_iff {f t A : ℚ} {c : Comp} :
    calculate_air_requirement f c t = .ok A ↔
      ∃ ro2, bisect f c (calculate_stoichiometric_o2 f c) t
          (nIter (calculate_stoichiometric_o2 f c * 5 -
            calculate_stoichiometric_o2 f c))
          (calculate_stoichiometric_o2 f c)
          (calculate_stoichiometric_o2 f c * 5) = .ok ro2 ∧
        A = ro2 / airO2Ratio := by
  unfold calculate_air_requirement
  cases hb : bisect f c (calculate_stoichiometric_o2 f c) t
      (nIter (calculate_stoichiometric_o2 f c * 5 -
        calculate_stoichiometric_o2 f c))
      (calculate_stoichiometric_o2 f c)
      (calculate_stoichiometric_o2 f c * 5) with
  | error e => simp [hb]
  | ok ro2 => simp [hb, eq_comm]

/-- Inversion of a successful full calculation: the pipeline stages all
succeeded, the three keys are present, the composer's total is nonzero, and
the result is `mkResult` of the intermediate values. -/
lemma exhaust_ok_elim {m t e : ℚ} {c : Comp} {r : ExhaustResult}
    (h : calculate_exhaust_gas m c t e = .ok r) :
    ∃ f A, calculate_molar_flow m c = .ok f ∧
      calculate_air_requirement f c t = .ok A ∧
      c.present .H2O = true ∧ c.present .He = true ∧ c.present .N2 = true ∧
      totalFlow f A c ≠ 0 ∧ r = mkResult f A c := by
  unfold calculate_exhaust_gas at h
  cases hf : calculate_molar_flow m c with
  | error e1 => rw [hf] at h; simp at h
  | ok f =>
    rw [hf] at h
    dsimp only at h
    cases hA : calculate_air_requirement f c t with
    | error e1 => rw [hA] at h; simp at h
    | ok A =>
      rw [hA] at h
      dsimp only at h
      cases hk1 : getKey c .H2O with
      | error e1 => rw [hk1] at h; simp at h
      | ok v1 =>
        rw [hk1] at h
        dsimp only at h
        cases hk2 : getKey c .He with
        | error e1 => rw [hk2] at h; simp at h
        | ok v2 =>
          rw [hk2] at h
          dsimp only at h
          cases hk3 : getKey c .N2 with
          | error e1 => rw [hk3] at h; simp at h
          | ok v3 =>
            rw [hk3] at h
            dsimp only at h
            obtain ⟨hp1, rfl⟩ := getKey_ok_iff.mp hk1
            obtain ⟨hp2, rfl⟩ := getKey_ok_iff.mp hk2
            obtain ⟨hp3, rfl⟩ := getKey_ok_iff.mp hk3
            split_ifs at h with htot
            refine ⟨f, A, rfl, hA, hp1, hp2, hp3, htot, ?_⟩
            injection h with h2
            exact h2.symm

/-- Introduction of a successful full calculation from its stages. -/
lemma exhaust_ok_intro {m t e f A : ℚ} {c : Comp}
    (hf : calculate_molar_flow m c = .ok f)
    (hA : calculate_air_requirement f c t = .ok A)
    (hp1 : c.present .H2O = true) (hp2 : c.present .He = true)
    (hp3 : c.present .N2 = true)
    (htot : totalFlow f A c ≠ 0) :
    calculate_exhaust_gas m c t e = .ok (mkResult f A c) := by
  unfold calculate_exhaust_gas
  rw [hf]
  dsimp only
  rw [hA]
  dsimp only
  rw [getKey_ok_iff.mpr ⟨hp1, rfl⟩]
  dsimp only
  rw [getKey_ok_iff.mpr ⟨hp2, rfl⟩]
  dsimp only
  rw [getKey_ok_iff.mpr ⟨hp3, rfl⟩]
  dsimp only
  split_ifs with hcond
  · exact absurd hcond htot
  · rfl

/-! ## Claim theorems -/

/-- C10: the calculation's result is independent of the `excess_air_ratio`
argument — two calls to `calculate_exhaust_gas` differing only in
`excess_air_ratio` return identical results, since the parameter is
accepted but never read. -/
theorem c10_excess_air_ratio_unused (m : ℚ) (c : Comp) (t e1 e2 : ℚ) :
    calculate_exhaust_gas m c t e1 = calculate_exhaust_gas m c t e2 := rfl

/-- C8: for every positive mass flow and every composition (all of whose
keys necessarily have entries in the closed species registry), the molar
flow converter returns exactly `mass_flow / avgMW`, the mole-fraction
weighted sum of the present species' molecular weights; the composition
satisfies the spec's `FuelComposition` invariant (nonnegative fractions
summing to 1), which makes the weighted sum nonzero. -/
theorem c8_molar_flow_exact (m : ℚ) (c : Comp) (hm : 0 < m)
    (hnn : ∀ s, c.present s = true → 0 ≤ c.frac s) (hsum : fracSum c = 1) :
    calculate_molar_flow m c = .ok (m / avgMW c) :=
  molar_ok_iff.mpr ⟨ne_of_gt (avgMW_pos c hnn hsum), rfl⟩

/-- Witness for C8 at a concrete valid composition and flow. -/
theorem c8_molar_flow_exact_witness :
    (0 : ℚ) < 1 ∧ fracSum compA = 1 ∧
      calculate_molar_flow 1 compA = .ok (1 / avgMW compA) :=
  ⟨by norm_num, by norm_num [fracSum, sumSpecies, compA],
    c8_molar_flow_exact 1 compA (by norm_num)
      (fun s _ => by cases s <;> norm_num [compA])
      (by norm_num [fracSum, sumSpecies, compA])⟩

/-- C6: for every input with strictly positive theoretical O2 demand, the
bisection loop over `[theoretical_o2, theoretical_o2 * 5]` terminates: the
embedding's out-of-fuel sentinel (reachable only if the loop failed to exit
within the halving bound) is never returned by the solver. -/
theorem c6_solver_terminates (f t : ℚ) (c : Comp)
    (hθ : 0 < calculate_stoichiometric_o2 f c) :
    calculate_air_requirement f c t ≠ .error .outOfFuel := by
  have hns := bisect_no_sentinel f c (calculate_stoichiometric_o2 f c) t
    (nIter (calculate_stoichiometric_o2 f c * 5 -
      calculate_stoichiometric_o2 f c))
    (calculate_stoichiometric_o2 f c) (calculate_stoichiometric_o2 f c * 5)
    (nIter_spec _)
  unfold calculate_air_requirement
  dsimp only
  cases hb : bisect f c (calculate_stoichiometric_o2 f c) t
      (nIter (calculate_stoichiometric_o2 f c * 5 -
        calculate_stoichiometric_o2 f c))
      (calculate_stoichiometric_o2 f c)
      (calculate_stoichiometric_o2 f c * 5) with
  | error e =>
    rw [hb] at hns
    simpa using hns
  | ok ro2 => simp

/-- Witness for C6 at a concrete combustible composition. -/
theorem c6_solver_terminates_witness :
    0 < calculate_stoichiometric_o2 1 compA ∧
      calculate_air_requirement 1 compA (3/100) ≠ .error .outOfFuel :=
  ⟨by norm_num [calculate_stoichiometric_o2, sumSpecies, compA, o2_requirement],
    c6_solver_terminates 1 (3/100) compA
      (by norm_num [calculate_stoichiometric_o2, sumSpecies, compA,
        o2_requirement])⟩

/-- C9: a composition that omits any of the keys H2O, He or N2 — even one
valid per the spec's interface — makes the exhaust computation fail with
the missing-key error of the first missing key among H2O, He, N2, because
the mass-balance and composer code index those keys unconditionally. -/
theorem c9_missing_key_error (m t e : ℚ) (c : Comp) (hm : 0 < m)
    (hnn : ∀ s, c.present s = true → 0 ≤ c.frac s) (hsum : fracSum c = 1)
    (hmiss : ¬(c.present .H2O = true ∧ c.present .He = true ∧
      c.present .N2 = true)) :
    calculate_exhaust_gas m c t e = .error (.keyError (firstMissing c)) ∧
      (firstMissing c = .H2O ∨ firstMissing c = .He ∨ firstMissing c = .N2) := by
  have havg := avgMW_pos c hnn hsum
  have hf : calculate_molar_flow m c = .ok (m / avgMW c) :=
    molar_ok_iff.mpr ⟨ne_of_gt havg, rfl⟩
  constructor
  · unfold calculate_exhaust_gas
    rw [hf]
    dsimp only
    rcases bisect_missing (m / avgMW c) c
        (calculate_stoichiometric_o2 (m / avgMW c) c) t hmiss
        (nIter (calculate_stoichiometric_o2 (m / avgMW c) c * 5 -
          calculate_stoichiometric_o2 (m / avgMW c) c))
        (calculate_stoichiometric_o2 (m / avgMW c) c)
        (calculate_stoichiometric_o2 (m / avgMW c) c * 5)
        (nIter_spec _) with hb | hb
    · have hA : calculate_air_requirement (m / avgMW c) c t =
          .ok (calculate_stoichiometric_o2 (m / avgMW c) c * 5 / airO2Ratio) :=
        air_ok_iff.mpr ⟨_, hb, rfl⟩
      rw [hA]
      dsimp only
      by_cases h1 : c.present .H2O = true
      · rw [getKey_ok_iff.mpr ⟨h1, rfl⟩]
        dsimp only
        by_cases h2 : c.present .He = true
        · rw [getKey_ok_iff.mpr ⟨h2, rfl⟩]
          dsimp only
          have h3 : c.present .N2 = false := by
            cases hp : c.present .N2
            · rfl
            · exact absurd ⟨h1, h2, hp⟩ hmiss
          rw [getKey_missing h3]
          simp [firstMissing, h1, h2, h3]
        · have h2' : c.present .He = false := by rwa [Bool.not_eq_true] at h2
          rw [getKey_missing h2']
          simp [firstMissing, h1, h2']
      · have h1' : c.present .H2O = false := by rwa [Bool.not_eq_true] at h1
        rw [getKey_missing h1']
        simp [firstMissing, h1']
    · have hA : calculate_air_requirement (m / avgMW c) c t =
          .error (.keyError (firstMissing c)) := by
        unfold calculate_air_requirement
        dsimp only
        rw [hb]
      rw [hA]
  · unfold firstMissing
    split_ifs <;> simp

/-- Witness for C9: the spec-valid composition `{CH4: 1}` fails with a
KeyError on H2O. -/
theorem c9_missing_key_error_witness :
    firstMissing compMethane = Species.H2O ∧
      calculate_exhaust_gas 1 compMethane (3/100) 1 =
        .error (.keyError (firstMissing compMethane)) :=
  ⟨by simp [firstMissing, compMethane],
    (c9_missing_key_error 1 (3/100) 1 compMethane (by norm_num)
      (fun s _ => by cases s <;> norm_num [compMethane])
      (by norm_num [fracSum, sumSpecies, compMethane])
      (by simp [compMethane])).1⟩

/-- Helper for C4: with zero theoretical O2 demand the bracket is
zero-width, the loop is skipped, and the calculation succeeds with zero air
requirement (no error of any kind is raised), provided the three
unconditionally-read keys are present and carry some positive fraction. -/
lemma degenerate_returns_zero_air (m t e : ℚ) (c : Comp) (hm : 0 < m)
    (hnn : ∀ s, c.present s = true → 0 ≤ c.frac s) (hsum : fracSum c = 1)
    (hp1 : c.present .H2O = true) (hp2 : c.present .He = true)
    (hp3 : c.present .N2 = true)
    (hθ : calculate_stoichiometric_o2 (m / avgMW c) c = 0)
    (hpos : 0 < c.frac .H2O + c.frac .He + c.frac .N2) :
    calculate_exhaust_gas m c t e =
      .ok (mkResult (m / avgMW c)
        (calculate_stoichiometric_o2 (m / avgMW c) c * 5 / airO2Ratio) c) ∧
      (mkResult (m / avgMW c)
        (calculate_stoichiometric_o2 (m / avgMW c) c * 5 / airO2Ratio)
          c).air_flow = 0 := by
  have havg := avgMW_pos c hnn hsum
  have hf : calculate_molar_flow m c = .ok (m / avgMW c) :=
    molar_ok_iff.mpr ⟨ne_of_gt havg, rfl⟩
  have hfpos : 0 < m / avgMW c := div_pos hm havg
  set f := m / avgMW c with hfdef
  have hb : bisect f c (calculate_stoichiometric_o2 f c) t
      (nIter (calculate_stoichiometric_o2 f c * 5 -
        calculate_stoichiometric_o2 f c))
      (calculate_stoichiometric_o2 f c)
      (calculate_stoichiometric_o2 f c * 5) =
      .ok (calculate_stoichiometric_o2 f c * 5) :=
    bisect_empty _ _ _ _ _ _ _ (by rw [hθ]; unfold bisectTol; norm_num)
  have hA : calculate_air_requirement f c t =
      .ok (calculate_stoichiometric_o2 f c * 5 / airO2Ratio) :=
    air_ok_iff.mpr ⟨_, hb, rfl⟩
  have htotval : totalFlow f (calculate_stoichiometric_o2 f c * 5 / airO2Ratio) c =
      co2S f c + h2oS f c + so2S f c +
        f * (c.frac .H2O + c.frac .He + c.frac .N2) := by
    unfold totalFlow
    rw [hθ]
    unfold airO2Ratio airN2Ratio
    ring
  have htot : 0 < totalFlow f (calculate_stoichiometric_o2 f c * 5 / airO2Ratio) c := by
    rw [htotval]
    have h1 := co2S_nonneg f c hfpos.le hnn
    have h2 := h2oS_nonneg f c hfpos.le hnn
    have h3 := so2S_nonneg f c hfpos.le hnn
    have h4 := mul_pos hfpos hpos
    linarith
  refine ⟨exhaust_ok_intro hf hA hp1 hp2 hp3 (ne_of_gt htot), ?_⟩
  simp only [mkResult]
  rw [hθ]
  norm_num

/-- C4 (amended): the code defines no DegenerateComposition error.  For a
composition with zero combustible content (zero theoretical O2 demand) that
carries the H2O/He/N2 keys with some positive fraction, the engine returns
a normal result whose air requirement is zero: the zero-width bracket makes
the loop exit immediately rather than raise. -/
theorem c4_degenerate_composition_returns_result (m t e : ℚ) (c : Comp)
    (hm : 0 < m)
    (hnn : ∀ s, c.present s = true → 0 ≤ c.frac s) (hsum : fracSum c = 1)
    (hp1 : c.present .H2O = true) (hp2 : c.present .He = true)
    (hp3 : c.present .N2 = true)
    (hθ : calculate_stoichiometric_o2 (m / avgMW c) c = 0)
    (hpos : 0 < c.frac .H2O + c.frac .He + c.frac .N2) :
    ∃ r, calculate_exhaust_gas m c t e = .ok r ∧ r.air_flow = 0 :=
  ⟨_, (degenerate_returns_zero_air m t e c hm hnn hsum hp1 hp2 hp3 hθ hpos).1,
    (degenerate_returns_zero_air m t e c hm hnn hsum hp1 hp2 hp3 hθ hpos).2⟩

/-- C4 counterexample: a composition with zero combustible content (hence
zero theoretical O2 demand) on which the engine computes a result — no
DegenerateComposition error is raised. -/
theorem c4_counterexample :
    calculate_stoichiometric_o2 1 compDegen = 0 ∧
      isOkE (calculate_exhaust_gas 1 compDegen (1/100) 1) = true := by
  constructor
  · norm_num [calculate_stoichiometric_o2, sumSpecies, compDegen, o2_requirement]
  · rw [(degenerate_returns_zero_air 1 (1/100) 1 compDegen (by norm_num)
      (fun s _ => by cases s <;> norm_num [compDegen])
      (by norm_num [fracSum, sumSpecies, compDegen]) rfl rfl rfl
      (by norm_num [calculate_stoichiometric_o2, sumSpecies, compDegen,
        o2_requirement])
      (by norm_num [compDegen])).1]
    rfl

/-- Witness for the amended C4 at the concrete degenerate composition. -/
theorem c4_degenerate_composition_returns_result_witness :
    calculate_stoichiometric_o2 (1 / avgMW compDegen) compDegen = 0 ∧
      (∃ r, calculate_exhaust_gas 1 compDegen (1/100) 1 = .ok r ∧
        r.air_flow = 0) :=
  ⟨by norm_num [calculate_stoichiometric_o2, sumSpecies, compDegen,
      o2_requirement],
    c4_degenerate_composition_returns_result 1 (1/100) 1 compDegen
      (by norm_num) (fun s _ => by cases s <;> norm_num [compDegen])
      (by norm_num [fracSum, sumSpecies, compDegen]) rfl rfl rfl
      (by norm_num [calculate_stoichiometric_o2, sumSpecies, compDegen,
        o2_requirement])
      (by norm_num [compDegen])⟩

/-- Helper for C5: a negative fuel mass flow flows through the whole
computation unchecked and produces a success result on `compA`. -/
lemma negative_flow_compA_ok (m t e : ℚ) (hm : m < 0) :
    calculate_exhaust_gas m compA t e =
      .ok (mkResult (m / avgMW compA)
        (calculate_stoichiometric_o2 (m / avgMW compA) compA * 5 / airO2Ratio)
        compA) := by
  have havg : avgMW compA = 98153/6000 := by
    norm_num [avgMW, sumSpecies, compA, MW]
  have havgpos : (0:ℚ) < avgMW compA := by rw [havg]; norm_num
  have hf : calculate_molar_flow m compA = .ok (m / avgMW compA) :=
    molar_ok_iff.mpr ⟨ne_of_gt havgpos, rfl⟩
  have hfneg : m / avgMW compA < 0 := div_neg_of_neg_of_pos hm havgpos
  set f := m / avgMW compA with hfdef
  have hθ : calculate_stoichiometric_o2 f compA = f := by
    simp [calculate_stoichiometric_o2, sumSpecies, compA, o2_requirement]
  have hb : bisect f compA (calculate_stoichiometric_o2 f compA) t
      (nIter (calculate_stoichiometric_o2 f compA * 5 -
        calculate_stoichiometric_o2 f compA))
      (calculate_stoichiometric_o2 f compA)
      (calculate_stoichiometric_o2 f compA * 5) =
      .ok (calculate_stoichiometric_o2 f compA * 5) :=
    bisect_empty _ _ _ _ _ _ _ (by rw [hθ]; unfold bisectTol; nlinarith)
  have hA : calculate_air_requirement f compA t =
      .ok (calculate_stoichiometric_o2 f compA * 5 / airO2Ratio) :=
    air_ok_iff.mpr ⟨_, hb, rfl⟩
  have htot : totalFlow f
      (calculate_stoichiometric_o2 f compA * 5 / airO2Ratio) compA =
      f * (521/21) := by
    simp [totalFlow, hθ, co2S, h2oS, so2S, compA, co2_production,
      h2o_production, so2_production, airO2Ratio, airN2Ratio,
      calculate_stoichiometric_o2, sumSpecies, o2_requirement]
    ring
  exact exhaust_ok_intro hf hA rfl rfl rfl
    (by rw [htot]; exact mul_ne_zero (ne_of_lt hfneg) (by norm_num))

/-- The composer path into the ZeroDivisionError: all stages succeed, the
keys are present, but the total exhaust molar flow is zero, so the percent
divisions raise. -/
lemma exhaust_divzero_intro {m t e f A : ℚ} {c : Comp}
    (hf : calculate_molar_flow m c = .ok f)
    (hA : calculate_air_requirement f c t = .ok A)
    (hp1 : c.present .H2O = true) (hp2 : c.present .He = true)
    (hp3 : c.present .N2 = true)
    (htot : totalFlow f A c = 0) :
    calculate_exhaust_gas m c t e = .error .divByZero := by
  unfold calculate_exhaust_gas
  rw [hf]
  dsimp only
  rw [hA]
  dsimp only
  rw [getKey_ok_iff.mpr ⟨hp1, rfl⟩]
  dsimp only
  rw [getKey_ok_iff.mpr ⟨hp2, rfl⟩]
  dsimp only
  rw [getKey_ok_iff.mpr ⟨hp3, rfl⟩]
  dsimp only
  split_ifs with hcond
  · rfl
  · exact absurd htot hcond

/-- Helper for C5: at exactly zero fuel mass flow the pipeline reaches the
composer with every molar flow zero, and dies there dividing the percent
composition by the zero total exhaust flow. -/
lemma zero_flow_compA_divByZero (t e : ℚ) :
    calculate_exhaust_gas 0 compA t e = .error .divByZero := by
  have havg : avgMW compA = 98153/6000 := by
    norm_num [avgMW, sumSpecies, compA, MW]
  have havgpos : (0:ℚ) < avgMW compA := by rw [havg]; norm_num
  have hf : calculate_molar_flow 0 compA = .ok 0 := by
    have h := molar_ok_iff.mpr
      (⟨ne_of_gt havgpos, rfl⟩ : avgMW compA ≠ 0 ∧
        (0:ℚ) / avgMW compA = (0:ℚ) / avgMW compA)
    rwa [zero_div] at h
  have hθ0 : calculate_stoichiometric_o2 0 compA = 0 := by
    simp [calculate_stoichiometric_o2, sumSpecies, compA, o2_requirement]
  have hb : bisect 0 compA (calculate_stoichiometric_o2 0 compA) t
      (nIter (calculate_stoichiometric_o2 0 compA * 5 -
        calculate_stoichiometric_o2 0 compA))
      (calculate_stoichiometric_o2 0 compA)
      (calculate_stoichiometric_o2 0 compA * 5) =
      .ok (calculate_stoichiometric_o2 0 compA * 5) :=
    bisect_empty _ _ _ _ _ _ _ (by rw [hθ0]; unfold bisectTol; norm_num)
  have hA : calculate_air_requirement 0 compA t =
      .ok (calculate_stoichiometric_o2 0 compA * 5 / airO2Ratio) :=
    air_ok_iff.mpr ⟨_, hb, rfl⟩
  have htot : totalFlow 0
      (calculate_stoichiometric_o2 0 compA * 5 / airO2Ratio) compA = 0 := by
    rw [hθ0]
    simp [totalFlow, co2S, h2oS, so2S, compA, co2_production,
      h2o_production, so2_production, airO2Ratio, airN2Ratio,
      calculate_stoichiometric_o2, sumSpecies, o2_requirement]
  exact exhaust_divzero_intro hf hA rfl rfl rfl htot

/-- C5 (amended): the engine performs no input validation — there is no
InvalidFlow error in the code, and no non-positive flow is rejected before
computation.  On a concrete valid composition, a negative fuel mass flow
flows through the whole computation and produces a full numeric result,
while a zero fuel mass flow crashes mid-computation with an unhandled
ZeroDivisionError when the composer divides by the zero total exhaust
flow. -/
theorem c5_no_input_validation (m t e : ℚ) (hm : m ≤ 0) :
    (m < 0 → ∃ r, calculate_exhaust_gas m compA t e = .ok r) ∧
      (m = 0 → calculate_exhaust_gas m compA t e = .error .divByZero) := by
  constructor
  · intro hneg
    exact ⟨_, negative_flow_compA_ok m t e hneg⟩
  · rintro rfl
    exact zero_flow_compA_divByZero t e

/-- C5 counterexample: the concrete call with fuel mass flow −1 (and a
target inside (0,1)) returns a success result; nothing is rejected. -/
theorem c5_counterexample :
    ((-1 : ℚ) < 0) ∧
      isOkE (calculate_exhaust_gas (-1) compA (3/100) 1) = true := by
  refine ⟨by norm_num, ?_⟩
  rw [negative_flow_compA_ok (-1) (3/100) 1 (by norm_num)]
  rfl

/-- Witness for the amended C5, instantiated at fuel mass flow −1 (full
result) and at 0 (ZeroDivisionError). -/
theorem c5_no_input_validation_witness :
    (((-1 : ℚ) ≤ 0 ∧ (-1 : ℚ) < 0) ∧
      (∃ r, calculate_exhaust_gas (-1) compA (3/100) 1 = .ok r)) ∧
      (((0 : ℚ) ≤ 0) ∧
        calculate_exhaust_gas 0 compA (3/100) 1 = .error .divByZero) :=
  ⟨⟨⟨by norm_num, by norm_num⟩,
      (c5_no_input_validation (-1) (3/100) 1 (by norm_num)).1 (by norm_num)⟩,
    ⟨by norm_num,
      (c5_no_input_validation 0 (3/100) 1 (by norm_num)).2 rfl⟩⟩

/-- Helper for C1: the exact mass-balance identity of the composer.  The
air-borne terms cancel exactly, leaving the fuel mass plus the
composition-weighted per-mole mass defect. -/
lemma mkResult_mass_balance (f A : ℚ) (c : Comp)
    (hp1 : c.present .H2O = true) (hp2 : c.present .He = true)
    (hp3 : c.present .N2 = true) :
    (mkResult f A c).total_mass_flow =
      f * avgMW c + (mkResult f A c).air_flow + f * massDefect c := by
  dsimp only [mkResult, co2S, h2oS, so2S, calculate_stoichiometric_o2, avgMW,
    massDefect, defect, exhaustMassPerMole, inertMass, sumSpecies, o2_requirement,
    co2_production, h2o_production, so2_production, MW, airO2Ratio,
    airN2Ratio]
  simp only [hp1, hp2, hp3, if_true, Option.getD_some, Option.getD_none,
    reduceIte]
  simp only [ite_indQ]
  ring

/-- C1 (amended): instead of exact mass conservation, the code satisfies
`total_mass_flow = fuel_mass_flow + air_mass_flow + fuel_molar_flow *
massDefect(composition)`: the mass defect is +0.01 kg/kmol per mole of each
hydrocarbon burned (rounded molecular weights) and −MW(s) per mole of
fuel-borne O2, CO2 or SO2, which the code drops from the exhaust entirely.
Conservation within floating-point tolerance therefore fails in general. -/
theorem c1_mass_balance_identity (m t e : ℚ) (c : Comp) (r : ExhaustResult)
    (h : calculate_exhaust_gas m c t e = .ok r) :
    r.total_mass_flow = m + r.air_flow + (m / avgMW c) * massDefect c := by
  obtain ⟨f, A, hf, hA, hp1, hp2, hp3, htot, rfl⟩ := exhaust_ok_elim h
  obtain ⟨havg, rfl⟩ := molar_ok_iff.mp hf
  rw [mkResult_mass_balance _ A c hp1 hp2 hp3, div_mul_cancel₀ m havg]

/-- Helper for C1's counterexample: the full pipeline value on `compB` at a
tiny flow (bracket below tolerance, so the loop is skipped). -/
lemma compB_tiny_ok :
    calculate_exhaust_gas (1/1000000000) compB (1/100) 1 =
      .ok (mkResult ((1/1000000000) / avgMW compB)
        (calculate_stoichiometric_o2 ((1/1000000000) / avgMW compB) compB *
          5 / airO2Ratio) compB) := by
  have havg : avgMW compB = 218253/10000 := by
    norm_num [avgMW, sumSpecies, compB, MW]
  have havgpos : (0:ℚ) < avgMW compB := by rw [havg]; norm_num
  have hf : calculate_molar_flow (1/1000000000) compB =
      .ok ((1/1000000000) / avgMW compB) :=
    molar_ok_iff.mpr ⟨ne_of_gt havgpos, rfl⟩
  set f := (1/1000000000 : ℚ) / avgMW compB with hfdef
  have hfval : f = 1/21825300000 := by
    rw [hfdef, havg]
    norm_num
  have hθ : calculate_stoichiometric_o2 f compB = f := by
    simp [calculate_stoichiometric_o2, sumSpecies, compB, o2_requirement]
  have hb : bisect f compB (calculate_stoichiometric_o2 f compB) (1/100)
      (nIter (calculate_stoichiometric_o2 f compB * 5 -
        calculate_stoichiometric_o2 f compB))
      (calculate_stoichiometric_o2 f compB)
      (calculate_stoichiometric_o2 f compB * 5) =
      .ok (calculate_stoichiometric_o2 f compB * 5) :=
    bisect_empty _ _ _ _ _ _ _
      (by rw [hθ, hfval]; unfold bisectTol; norm_num)
  have hA : calculate_air_requirement f compB (1/100) =
      .ok (calculate_stoichiometric_o2 f compB * 5 / airO2Ratio) :=
    air_ok_iff.mpr ⟨_, hb, rfl⟩
  have htot : totalFlow f
      (calculate_stoichiometric_o2 f compB * 5 / airO2Ratio) compB =
      f * (2584/105) := by
    simp [totalFlow, hθ, co2S, h2oS, so2S, compB, co2_production,
      h2o_production, so2_production, airO2Ratio, airN2Ratio,
      calculate_stoichiometric_o2, sumSpecies, o2_requirement]
    ring
  exact exhaust_ok_intro hf hA rfl rfl rfl
    (by rw [htot, hfval]; norm_num)

/-- C1 counterexample: on the spec-valid composition `compB` (which carries
20% fuel CO2) with positive flow and target in (0,1), the returned total
mass flow falls short of fuel + air by more than a tenth of the fuel mass
flow — far beyond floating-point tolerance. -/
theorem c1_counterexample :
    isOkE (calculate_exhaust_gas (1/1000000000) compB (1/100) 1) = true ∧
      (1/1000000000 : ℚ) +
          (resOr (calculate_exhaust_gas (1/1000000000) compB (1/100) 1)).air_flow -
          (resOr (calculate_exhaust_gas (1/1000000000) compB (1/100) 1)).total_mass_flow >
        (1/1000000000 : ℚ) / 10 := by
  have h := compB_tiny_ok
  constructor
  · rw [h]
    rfl
  · rw [h]
    simp only [resOr]
    have havg : avgMW compB = 218253/10000 := by
      norm_num [avgMW, sumSpecies, compB, MW]
    have havgpos : (0:ℚ) < avgMW compB := by rw [havg]; norm_num
    have hd : massDefect compB = -(8797/1000) := by
      norm_num [massDefect, defect, exhaustMassPerMole, inertMass, sumSpecies, compB, MW,
        o2_requirement, co2_production, h2o_production, so2_production]
    have hbal := mkResult_mass_balance ((1/1000000000) / avgMW compB)
      (calculate_stoichiometric_o2 ((1/1000000000) / avgMW compB) compB * 5 /
        airO2Ratio) compB rfl rfl rfl
    rw [hbal, hd, havg]
    norm_num

/-- Witness for the amended C1 at the concrete `compB` input. -/
theorem c1_mass_balance_identity_witness :
    (resOr (calculate_exhaust_gas (1/1000000000) compB (1/100) 1)).total_mass_flow =
      1/1000000000 +
        (resOr (calculate_exhaust_gas (1/1000000000) compB (1/100) 1)).air_flow +
        ((1/1000000000) / avgMW compB) * massDefect compB :=
  c1_mass_balance_identity (1/1000000000) (1/100) 1 compB _
    (by rw [compB_tiny_ok]; simp [resOr])

/-- C7: on every success result from valid inputs (positive mass flow,
nonnegative fractions), every returned flow is nonnegative: each entry of
the mass-flow mapping (including residual O2, since the solver keeps the O2
supply at or above the theoretical demand), the total exhaust mass flow,
and the air mass flow. -/
theorem c7_all_flows_nonneg (m t e : ℚ) (c : Comp) (r : ExhaustResult)
    (hm : 0 < m) (hnn : ∀ s, c.present s = true → 0 ≤ c.frac s)
    (h : calculate_exhaust_gas m c t e = .ok r) :
    0 ≤ r.massCO2 ∧ 0 ≤ r.massH2O ∧ 0 ≤ r.massSO2 ∧ 0 ≤ r.massHe ∧
      0 ≤ r.massO2 ∧ 0 ≤ r.massN2 ∧ 0 ≤ r.total_mass_flow ∧
      0 ≤ r.air_flow := by
  obtain ⟨f, A, hf, hA, hp1, hp2, hp3, htot, rfl⟩ := exhaust_ok_elim h
  obtain ⟨havg, rfl⟩ := molar_ok_iff.mp hf
  have havgnn : 0 ≤ avgMW c := by
    refine sumSpecies_nonneg _ fun s => ?_
    by_cases hp : c.present s = true
    · simp only [hp, if_true]
      exact mul_nonneg (hnn s hp) (by linarith [MW_ge s])
    · simp [hp]
  have havgpos : 0 < avgMW c := lt_of_le_of_ne havgnn (Ne.symm havg)
  have hfpos : 0 < m / avgMW c := div_pos hm havgpos
  set f := m / avgMW c with hfdef
  obtain ⟨ro2, hb, rfl⟩ := air_ok_iff.mp hA
  have hθnn : 0 ≤ calculate_stoichiometric_o2 f c :=
    stoich_nonneg f c hfpos.le hnn
  have hbb := bisect_ok_between f c (calculate_stoichiometric_o2 f c) t
    (nIter (calculate_stoichiometric_o2 f c * 5 -
      calculate_stoichiometric_o2 f c))
    (calculate_stoichiometric_o2 f c) (calculate_stoichiometric_o2 f c * 5)
    ro2 (le_refl _) (by linarith) hb
  have hro2 : 0 ≤ ro2 := le_trans hθnn hbb.1
  have hAval : ro2 / airO2Ratio * airO2Ratio = ro2 :=
    div_mul_cancel₀ _ (by norm_num [airO2Ratio])
  have hAnn : 0 ≤ ro2 / airO2Ratio :=
    div_nonneg hro2 (by norm_num [airO2Ratio])
  have hco2 := co2S_nonneg f c hfpos.le hnn
  have hh2o : 0 ≤ f * c.frac .H2O + h2oS f c :=
    add_nonneg (mul_nonneg hfpos.le (hnn _ hp1)) (h2oS_nonneg f c hfpos.le hnn)
  have hso2 := so2S_nonneg f c hfpos.le hnn
  have hhe : 0 ≤ f * c.frac .He := mul_nonneg hfpos.le (hnn _ hp2)
  have ho2r : 0 ≤ ro2 / airO2Ratio * airO2Ratio -
      calculate_stoichiometric_o2 f c := by
    rw [hAval]
    linarith [hbb.1]
  have hn2 : 0 ≤ ro2 / airO2Ratio * airN2Ratio + f * c.frac .N2 :=
    add_nonneg (mul_nonneg hAnn (by norm_num [airN2Ratio]))
      (mul_nonneg hfpos.le (hnn _ hp3))
  simp only [mkResult]
  have m1 : 0 ≤ co2S f c * MW .CO2 := mul_nonneg hco2 (by norm_num [MW])
  have m2 : 0 ≤ (f * c.frac .H2O + h2oS f c) * MW .H2O :=
    mul_nonneg hh2o (by norm_num [MW])
  have m3 : 0 ≤ so2S f c * MW .SO2 := mul_nonneg hso2 (by norm_num [MW])
  have m4 : 0 ≤ f * c.frac .He * MW .He := mul_nonneg hhe (by norm_num [MW])
  have m5 : 0 ≤ (ro2 / airO2Ratio * airO2Ratio -
      calculate_stoichiometric_o2 f c) * MW .O2 :=
    mul_nonneg ho2r (by norm_num [MW])
  have m6 : 0 ≤ (ro2 / airO2Ratio * airN2Ratio + f * c.frac .N2) * MW .N2 :=
    mul_nonneg hn2 (by norm_num [MW])
  exact ⟨m1, m2, m3, m4, m5, m6, by linarith,
    mul_nonneg hAnn (by norm_num [MW, airO2Ratio, airN2Ratio])⟩

/-- Witness for C7 at the concrete `compB` input. -/
theorem c7_all_flows_nonneg_witness :
    (0:ℚ) < 1/1000000000 ∧
      (0 ≤ (resOr (calculate_exhaust_gas (1/1000000000) compB (1/100) 1)).massCO2 ∧
        0 ≤ (resOr (calculate_exhaust_gas (1/1000000000) compB (1/100) 1)).massH2O ∧
        0 ≤ (resOr (calculate_exhaust_gas (1/1000000000) compB (1/100) 1)).massSO2 ∧
        0 ≤ (resOr (calculate_exhaust_gas (1/1000000000) compB (1/100) 1)).massHe ∧
        0 ≤ (resOr (calculate_exhaust_gas (1/1000000000) compB (1/100) 1)).massO2 ∧
        0 ≤ (resOr (calculate_exhaust_gas (1/1000000000) compB (1/100) 1)).massN2 ∧
        0 ≤ (resOr (calculate_exhaust_gas (1/1000000000) compB (1/100) 1)).total_mass_flow ∧
        0 ≤ (resOr (calculate_exhaust_gas (1/1000000000) compB (1/100) 1)).air_flow) :=
  ⟨by norm_num,
    c7_all_flows_nonneg (1/1000000000) (1/100) 1 compB _ (by norm_num)
      (fun s _ => by cases s <;> norm_num [compB])
      (by rw [compB_tiny_ok]; simp [resOr])⟩

/-- One iteration of the bisection loop, on the success path: evaluate the
midpoint ratio and recurse on the half bracket. -/
lemma bisect_step_ok (f : ℚ) (c : Comp) (θ t : ℚ)
    (hp1 : c.present .H2O = true) (hp2 : c.present .He = true)
    (hp3 : c.present .N2 = true) (k : ℕ) (low high : ℚ)
    (hc : high - low > bisectTol)
    (hT : exhaustTotalPure f c θ ((low + high) / 2) ≠ 0) :
    bisect f c θ t (k+1) low high =
      if ((low + high) / 2 - θ) / exhaustTotalPure f c θ ((low + high) / 2) < t
      then bisect f c θ t k ((low + high) / 2) high
      else bisect f c θ t k low ((low + high) / 2) := by
  rw [bisect_succ, if_pos hc, cte_ok hp1 hp2 hp3]
  dsimp only
  rw [qdiv_ok_iff.mpr ⟨hT, rfl⟩]

/-- Coupled bisection runs with targets `t1 ≤ t2`: provided both brackets
are related (equal, or the first entirely left of the second), both runs
succeed and the first result is at most the second. -/
lemma bisect_pair (f : ℚ) (c : Comp) (θ t1 t2 : ℚ)
    (hp1 : c.present .H2O = true) (hp2 : c.present .He = true)
    (hp3 : c.present .N2 = true)
    (hTθ : 0 < exhaustTotalPure f c θ θ) (ht : t1 ≤ t2) :
    ∀ n low1 high1 low2 high2,
      θ ≤ low1 → low1 ≤ high1 → θ ≤ low2 → low2 ≤ high2 →
      high1 - low1 = high2 - low2 →
      high1 - low1 ≤ bisectTol * 2 ^ n →
      ((low1 = low2 ∧ high1 = high2) ∨ high1 ≤ low2) →
      ∃ h1 h2, bisect f c θ t1 n low1 high1 = .ok h1 ∧
        bisect f c θ t2 n low2 high2 = .ok h2 ∧ h1 ≤ h2 := by
  intro n
  induction n with
  | zero =>
    intro low1 high1 low2 high2 hl1 hw1 hl2 hw2 hweq hwb hinv
    refine ⟨high1, high2,
      bisect_empty _ _ _ _ _ _ _ (by simpa using hwb),
      bisect_empty _ _ _ _ _ _ _ (by rw [← hweq]; simpa using hwb), ?_⟩
    rcases hinv with ⟨he1, he2⟩ | hd
    · rw [he2]
    · linarith
  | succ k ih =>
    intro low1 high1 low2 high2 hl1 hw1 hl2 hw2 hweq hwb hinv
    by_cases hc : high1 - low1 > bisectTol
    · have hc2 : high2 - low2 > bisectTol := by rw [← hweq]; exact hc
      rw [pow_succ] at hwb
      have hmid1θ : θ ≤ (low1 + high1) / 2 := by linarith
      have hmid2θ : θ ≤ (low2 + high2) / 2 := by linarith
      have hT1 : 0 < exhaustTotalPure f c θ ((low1 + high1) / 2) :=
        lt_of_lt_of_le hTθ (exhaustTotalPure_mono f c θ hmid1θ)
      have hT2 : 0 < exhaustTotalPure f c θ ((low2 + high2) / 2) :=
        lt_of_lt_of_le hTθ (exhaustTotalPure_mono f c θ hmid2θ)
      rw [bisect_step_ok f c θ t1 hp1 hp2 hp3 k low1 high1 hc (ne_of_gt hT1),
        bisect_step_ok f c θ t2 hp1 hp2 hp3 k low2 high2 hc2 (ne_of_gt hT2)]
      rcases hinv with ⟨he1, he2⟩ | hd
      · subst he1
        subst he2
        by_cases hr1 : ((low1 + high1) / 2 - θ) /
            exhaustTotalPure f c θ ((low1 + high1) / 2) < t1
        · have hr2 : ((low1 + high1) / 2 - θ) /
              exhaustTotalPure f c θ ((low1 + high1) / 2) < t2 :=
            lt_of_lt_of_le hr1 ht
          rw [if_pos hr1, if_pos hr2]
          exact ih ((low1 + high1) / 2) high1 ((low1 + high1) / 2) high1
            hmid1θ (by linarith) hmid1θ (by linarith) rfl (by linarith)
            (Or.inl ⟨rfl, rfl⟩)
        · by_cases hr2 : ((low1 + high1) / 2 - θ) /
              exhaustTotalPure f c θ ((low1 + high1) / 2) < t2
          · rw [if_neg hr1, if_pos hr2]
            exact ih low1 ((low1 + high1) / 2) ((low1 + high1) / 2) high1
              hl1 (by linarith) hmid1θ (by linarith) (by ring) (by linarith)
              (Or.inr (le_refl _))
          · rw [if_neg hr1, if_neg hr2]
            exact ih low1 ((low1 + high1) / 2) low1 ((low1 + high1) / 2)
              hl1 (by linarith) hl1 (by linarith) rfl (by linarith)
              (Or.inl ⟨rfl, rfl⟩)
      · by_cases hr1 : ((low1 + high1) / 2 - θ) /
            exhaustTotalPure f c θ ((low1 + high1) / 2) < t1 <;>
          by_cases hr2 : ((low2 + high2) / 2 - θ) /
              exhaustTotalPure f c θ ((low2 + high2) / 2) < t2
        · rw [if_pos hr1, if_pos hr2]
          exact ih ((low1 + high1) / 2) high1 ((low2 + high2) / 2) high2
            hmid1θ (by linarith) hmid2θ (by linarith) (by linarith)
            (by linarith) (Or.inr (by linarith))
        · rw [if_pos hr1, if_neg hr2]
          exact ih ((low1 + high1) / 2) high1 low2 ((low2 + high2) / 2)
            hmid1θ (by linarith) hl2 (by linarith) (by linarith)
            (by linarith) (Or.inr (by linarith))
        · rw [if_neg hr1, if_pos hr2]
          exact ih low1 ((low1 + high1) / 2) ((low2 + high2) / 2) high2
            hl1 (by linarith) hmid2θ (by linarith) (by linarith)
            (by linarith) (Or.inr (by linarith))
        · rw [if_neg hr1, if_neg hr2]
          exact ih low1 ((low1 + high1) / 2) low2 ((low2 + high2) / 2)
            hl1 (by linarith) hl2 (by linarith) (by linarith)
            (by linarith) (Or.inr (by linarith))
    · refine ⟨high1, high2,
        bisect_empty _ _ _ _ _ _ _ (by linarith),
        bisect_empty _ _ _ _ _ _ _ (by linarith), ?_⟩
      rcases hinv with ⟨he1, he2⟩ | hd
      · rw [he2]
      · linarith

/-- C3 (amended): increasing the target O2 fraction weakly increases the
returned air mass flow — `t1 ≤ t2` gives `air_flow(t1) ≤ air_flow(t2)` on
any pair of success results with the same valid composition and flow.
Strict monotonicity fails (see the counterexample). -/
theorem c3_air_flow_weak_monotone (m t1 t2 e1 e2 : ℚ) (c : Comp)
    (r1 r2 : ExhaustResult)
    (hm : 0 < m) (hnn : ∀ s, c.present s = true → 0 ≤ c.frac s)
    (ht : t1 ≤ t2)
    (h1 : calculate_exhaust_gas m c t1 e1 = .ok r1)
    (h2 : calculate_exhaust_gas m c t2 e2 = .ok r2) :
    r1.air_flow ≤ r2.air_flow := by
  obtain ⟨f1, A1, hf1, hA1, hp1, hp2, hp3, htot1, rfl⟩ := exhaust_ok_elim h1
  obtain ⟨f2, A2, hf2, hA2, _, _, _, htot2, rfl⟩ := exhaust_ok_elim h2
  obtain ⟨havg, rfl⟩ := molar_ok_iff.mp hf1
  obtain ⟨_, rfl⟩ := molar_ok_iff.mp hf2
  have havgnn : 0 ≤ avgMW c := by
    refine sumSpecies_nonneg _ fun s => ?_
    by_cases hp : c.present s = true
    · simp only [hp, if_true]
      exact mul_nonneg (hnn s hp) (by linarith [MW_ge s])
    · simp [hp]
  have havgpos : 0 < avgMW c := lt_of_le_of_ne havgnn (Ne.symm havg)
  have hfpos : 0 < m / avgMW c := div_pos hm havgpos
  set f := m / avgMW c with hfdef
  obtain ⟨ro1, hb1, rfl⟩ := air_ok_iff.mp hA1
  obtain ⟨ro2, hb2, rfl⟩ := air_ok_iff.mp hA2
  have hθnn : 0 ≤ calculate_stoichiometric_o2 f c :=
    stoich_nonneg f c hfpos.le hnn
  suffices hro : ro1 ≤ ro2 by
    simp only [mkResult]
    have hdiv : ro1 / airO2Ratio ≤ ro2 / airO2Ratio :=
      (div_le_div_right (by norm_num [airO2Ratio])).mpr hro
    exact mul_le_mul_of_nonneg_right hdiv
      (by norm_num [MW, airO2Ratio, airN2Ratio])
  by_cases hθ0 : calculate_stoichiometric_o2 f c = 0
  · have he1 := bisect_empty f c (calculate_stoichiometric_o2 f c) t1
      (nIter (calculate_stoichiometric_o2 f c * 5 -
        calculate_stoichiometric_o2 f c))
      (calculate_stoichiometric_o2 f c) (calculate_stoichiometric_o2 f c * 5)
      (by rw [hθ0]; norm_num [bisectTol])
    have he2 := bisect_empty f c (calculate_stoichiometric_o2 f c) t2
      (nIter (calculate_stoichiometric_o2 f c * 5 -
        calculate_stoichiometric_o2 f c))
      (calculate_stoichiometric_o2 f c) (calculate_stoichiometric_o2 f c * 5)
      (by rw [hθ0]; norm_num [bisectTol])
    rw [he1] at hb1
    rw [he2] at hb2
    obtain rfl : calculate_stoichiometric_o2 f c * 5 = ro1 := by
      simpa using hb1
    obtain rfl : calculate_stoichiometric_o2 f c * 5 = ro2 := by
      simpa using hb2
    exact le_refl _
  · have hθpos : 0 < calculate_stoichiometric_o2 f c :=
      lt_of_le_of_ne hθnn (Ne.symm hθ0)
    have hconv : exhaustTotalPure f c (calculate_stoichiometric_o2 f c)
        (calculate_stoichiometric_o2 f c) =
        co2S f c + (f * c.frac .H2O + h2oS f c) + so2S f c +
          f * c.frac .He + f * c.frac .N2 +
          calculate_stoichiometric_o2 f c * (79/21) := by
      unfold exhaustTotalPure airO2Ratio airN2Ratio
      ring
    have hTθ : 0 < exhaustTotalPure f c (calculate_stoichiometric_o2 f c)
        (calculate_stoichiometric_o2 f c) := by
      rw [hconv]
      have n1 := co2S_nonneg f c hfpos.le hnn
      have n2 := h2oS_nonneg f c hfpos.le hnn
      have n3 := so2S_nonneg f c hfpos.le hnn
      have n4 : 0 ≤ f * c.frac .H2O := mul_nonneg hfpos.le (hnn _ hp1)
      have n5 : 0 ≤ f * c.frac .He := mul_nonneg hfpos.le (hnn _ hp2)
      have n6 : 0 ≤ f * c.frac .N2 := mul_nonneg hfpos.le (hnn _ hp3)
      nlinarith
    obtain ⟨h1', h2', e1', e2', hle⟩ := bisect_pair f c
      (calculate_stoichiometric_o2 f c) t1 t2 hp1 hp2 hp3 hTθ ht
      (nIter (calculate_stoichiometric_o2 f c * 5 -
        calculate_stoichiometric_o2 f c))
      (calculate_stoichiometric_o2 f c) (calculate_stoichiometric_o2 f c * 5)
      (calculate_stoichiometric_o2 f c) (calculate_stoichiometric_o2 f c * 5)
      (le_refl _) (by linarith) (le_refl _) (by linarith) rfl
      (nIter_spec _) (Or.inl ⟨rfl, rfl⟩)
    rw [hb1] at e1'
    rw [hb2] at e2'
    obtain rfl : ro1 = h1' := by simpa using e1'
    obtain rfl : ro2 = h2' := by simpa using e2'
    exact hle

/-- Helper: at a tiny flow the bracket width is already below tolerance, so
the solver output on `compA` is independent of the target. -/
lemma compA_tiny_ok (t e : ℚ) :
    calculate_exhaust_gas (1/1000000000) compA t e =
      .ok (mkResult ((1/1000000000) / avgMW compA)
        (calculate_stoichiometric_o2 ((1/1000000000) / avgMW compA) compA *
          5 / airO2Ratio) compA) := by
  have havg : avgMW compA = 98153/6000 := by
    norm_num [avgMW, sumSpecies, compA, MW]
  have havgpos : (0:ℚ) < avgMW compA := by rw [havg]; norm_num
  have hf : calculate_molar_flow (1/1000000000) compA =
      .ok ((1/1000000000) / avgMW compA) :=
    molar_ok_iff.mpr ⟨ne_of_gt havgpos, rfl⟩
  set f := (1/1000000000 : ℚ) / avgMW compA with hfdef
  have hfval : f = 3/49076500000 := by
    rw [hfdef, havg]
    norm_num
  have hθ : calculate_stoichiometric_o2 f compA = f := by
    simp [calculate_stoichiometric_o2, sumSpecies, compA, o2_requirement]
  have hb : bisect f compA (calculate_stoichiometric_o2 f compA) t
      (nIter (calculate_stoichiometric_o2 f compA * 5 -
        calculate_stoichiometric_o2 f compA))
      (calculate_stoichiometric_o2 f compA)
      (calculate_stoichiometric_o2 f compA * 5) =
      .ok (calculate_stoichiometric_o2 f compA * 5) :=
    bisect_empty _ _ _ _ _ _ _
      (by rw [hθ, hfval]; unfold bisectTol; norm_num)
  have hA : calculate_air_requirement f compA t =
      .ok (calculate_stoichiometric_o2 f compA * 5 / airO2Ratio) :=
    air_ok_iff.mpr ⟨_, hb, rfl⟩
  have htot : totalFlow f
      (calculate_stoichiometric_o2 f compA * 5 / airO2Ratio) compA =
      f * (521/21) := by
    simp [totalFlow, hθ, co2S, h2oS, so2S, compA, co2_production,
      h2o_production, so2_production, airO2Ratio, airN2Ratio,
      calculate_stoichiometric_o2, sumSpecies, o2_requirement]
    ring
  exact exhaust_ok_intro hf hA rfl rfl rfl
    (by rw [htot, hfval]; norm_num)

/-- C3 counterexample: with the fixed valid composition `compA`, positive
flow `1e-9`, and targets `t1 = 1/1000 < t2 = 1/500` (both in (0,1)), both
calls succeed and return the same air mass flow, so strict monotonicity
fails. -/
theorem c3_counterexample :
    (0:ℚ) < 1/1000 ∧ (1/1000:ℚ) < 1/500 ∧ (1/500:ℚ) < 1 ∧
      isOkE (calculate_exhaust_gas (1/1000000000) compA (1/1000) 1) = true ∧
      isOkE (calculate_exhaust_gas (1/1000000000) compA (1/500) 1) = true ∧
      (resOr (calculate_exhaust_gas (1/1000000000) compA (1/500) 1)).air_flow =
        (resOr (calculate_exhaust_gas (1/1000000000) compA (1/1000) 1)).air_flow := by
  refine ⟨by norm_num, by norm_num, by norm_num, ?_, ?_, ?_⟩
  · rw [compA_tiny_ok]
    rfl
  · rw [compA_tiny_ok]
    rfl
  · rw [compA_tiny_ok, compA_tiny_ok]

/-- Witness for the amended C3 at concrete targets. -/
theorem c3_air_flow_weak_monotone_witness :
    (1/1000 : ℚ) ≤ 1/500 ∧
      (resOr (calculate_exhaust_gas (1/1000000000) compA (1/1000) 1)).air_flow ≤
        (resOr (calculate_exhaust_gas (1/1000000000) compA (1/500) 1)).air_flow :=
  ⟨by norm_num,
    c3_air_flow_weak_monotone (1/1000000000) (1/1000) (1/500) 1 1 compA _ _
      (by norm_num) (fun s _ => by cases s <;> norm_num [compA])
      (by norm_num)
      (by rw [compA_tiny_ok]; simp [resOr])
      (by rw [compA_tiny_ok]; simp [resOr])⟩

/-- Bisection invariant: starting from a bracket whose endpoint ratios
straddle the target, the loop returns an upper endpoint `h` together with a
lower endpoint `l` within tolerance of it whose ratios still straddle the
target. -/
lemma bisect_spec (f : ℚ) (c : Comp) (θ t : ℚ)
    (hp1 : c.present .H2O = true) (hp2 : c.present .He = true)
    (hp3 : c.present .N2 = true)
    (hTθ : 0 < exhaustTotalPure f c θ θ) :
    ∀ n low high, θ ≤ low → low ≤ high →
      high - low ≤ bisectTol * 2 ^ n →
      (low - θ) / exhaustTotalPure f c θ low < t →
      t ≤ (high - θ) / exhaustTotalPure f c θ high →
      ∃ l h, bisect f c θ t n low high = .ok h ∧ h - l ≤ bisectTol ∧
        θ ≤ l ∧ l ≤ h ∧
        (l - θ) / exhaustTotalPure f c θ l < t ∧
        t ≤ (h - θ) / exhaustTotalPure f c θ h := by
  intro n
  induction n with
  | zero =>
    intro low high hθl hlh hwb hrl hrh
    exact ⟨low, high, bisect_empty _ _ _ _ _ _ _ (by simpa using hwb),
      by simpa using hwb, hθl, hlh, hrl, hrh⟩
  | succ k ih =>
    intro low high hθl hlh hwb hrl hrh
    by_cases hc : high - low > bisectTol
    · rw [pow_succ] at hwb
      have hmidθ : θ ≤ (low + high) / 2 := by linarith
      have hT : 0 < exhaustTotalPure f c θ ((low + high) / 2) :=
        lt_of_lt_of_le hTθ (exhaustTotalPure_mono f c θ hmidθ)
      rw [bisect_step_ok f c θ t hp1 hp2 hp3 k low high hc (ne_of_gt hT)]
      by_cases hr : ((low + high) / 2 - θ) /
          exhaustTotalPure f c θ ((low + high) / 2) < t
      · rw [if_pos hr]
        exact ih ((low + high) / 2) high hmidθ (by linarith) (by linarith)
          hr hrh
      · rw [if_neg hr]
        exact ih low ((low + high) / 2) hθl (by linarith) (by linarith)
          hrl (le_of_not_lt hr)
    · exact ⟨low, high, bisect_empty _ _ _ _ _ _ _ (by linarith),
        by linarith, hθl, hlh, hrl, hrh⟩

/-- The implied residual-O2 mole fraction of a composer result is exactly
the residual-O2 mole fraction of the mass balance at the corresponding O2
supply. -/
lemma implied_eq_ratio (f A : ℚ) (c : Comp) :
    impliedO2MoleFrac (mkResult f A c) =
      (A * airO2Ratio - calculate_stoichiometric_o2 f c) /
        exhaustTotalPure f c (calculate_stoichiometric_o2 f c)
          (A * airO2Ratio) := by
  simp only [impliedO2MoleFrac, mkResult]
  have c1 : ∀ a : ℚ, a * MW .CO2 / MW .CO2 = a := fun a =>
    mul_div_cancel_right₀ a (by norm_num [MW])
  have c2 : ∀ a : ℚ, a * MW .H2O / MW .H2O = a := fun a =>
    mul_div_cancel_right₀ a (by norm_num [MW])
  have c3 : ∀ a : ℚ, a * MW .SO2 / MW .SO2 = a := fun a =>
    mul_div_cancel_right₀ a (by norm_num [MW])
  have c4 : ∀ a : ℚ, a * MW .He / MW .He = a := fun a =>
    mul_div_cancel_right₀ a (by norm_num [MW])
  have c5 : ∀ a : ℚ, a * MW .O2 / MW .O2 = a := fun a =>
    mul_div_cancel_right₀ a (by norm_num [MW])
  have c6 : ∀ a : ℚ, a * MW .N2 / MW .N2 = a := fun a =>
    mul_div_cancel_right₀ a (by norm_num [MW])
  rw [c1, c2, c3, c4, c5, c6]
  congr 1
  unfold exhaustTotalPure airO2Ratio airN2Ratio
  ring

/-- C2 (amended): whenever the target lies strictly between the residual-O2
mole fraction at stoichiometric supply (which is 0) and the one at 5×
stoichiometric supply, and additionally the total exhaust molar flow at
stoichiometric supply is at least 0.01 mol/s, the implied residual-O2 mole
fraction of the result matches the target within 1e-4.  The extra scale
hypothesis is needed because the loop tolerance 1e-6 is absolute in O2
supply units; at small flows the implied mole fraction can miss the target
by far more than 1e-4 (see the counterexample). -/
theorem c2_target_achieved_at_scale (m t e : ℚ) (c : Comp)
    (r : ExhaustResult)
    (hm : 0 < m) (hnn : ∀ s, c.present s = true → 0 ≤ c.frac s)
    (hscale : 1/100 ≤ exhaustTotalPure (m / avgMW c) c
      (calculate_stoichiometric_o2 (m / avgMW c) c)
      (calculate_stoichiometric_o2 (m / avgMW c) c))
    (ht1 : 0 < t)
    (ht2 : t < exhaustRatio (m / avgMW c) c
      (calculate_stoichiometric_o2 (m / avgMW c) c)
      (calculate_stoichiometric_o2 (m / avgMW c) c * 5))
    (h : calculate_exhaust_gas m c t e = .ok r) :
    |impliedO2MoleFrac r - t| ≤ 1/10000 := by
  obtain ⟨f, A, hf, hA, hp1, hp2, hp3, htot, rfl⟩ := exhaust_ok_elim h
  obtain ⟨havg, rfl⟩ := molar_ok_iff.mp hf
  set f := m / avgMW c with hfdef
  set θ := calculate_stoichiometric_o2 f c with hθdef
  have havgnn : 0 ≤ avgMW c := by
    refine sumSpecies_nonneg _ fun s => ?_
    by_cases hp : c.present s = true
    · simp only [hp, if_true]
      exact mul_nonneg (hnn s hp) (by linarith [MW_ge s])
    · simp [hp]
  have havgpos : 0 < avgMW c := lt_of_le_of_ne havgnn (Ne.symm havg)
  have hfpos : 0 < f := div_pos hm havgpos
  have hθnn : 0 ≤ θ := stoich_nonneg f c hfpos.le hnn
  have hTθpos : 0 < exhaustTotalPure f c θ θ := by
    have : (0:ℚ) < 1/100 := by norm_num
    linarith
  obtain ⟨ro2, hb, rfl⟩ := air_ok_iff.mp hA
  unfold exhaustRatio at ht2
  obtain ⟨l, h', e', hwid, hθl, hlh, hrl, hrh⟩ :=
    bisect_spec f c θ t hp1 hp2 hp3 hTθpos
      (nIter (θ * 5 - θ)) θ (θ * 5) (le_refl _) (by linarith)
      (nIter_spec _)
      (by rw [sub_self, zero_div]; exact ht1)
      (le_of_lt ht2)
  rw [hb] at e'
  obtain rfl : ro2 = h' := by simpa using e'
  have hAval : ro2 / airO2Ratio * airO2Ratio = ro2 :=
    div_mul_cancel₀ _ (by norm_num [airO2Ratio])
  rw [implied_eq_ratio, hAval]
  -- ratio gap bound
  have hTl : 1/100 ≤ exhaustTotalPure f c θ l :=
    le_trans hscale (exhaustTotalPure_mono f c θ hθl)
  have hTlpos : 0 < exhaustTotalPure f c θ l := by linarith
  have hTle : exhaustTotalPure f c θ l ≤ exhaustTotalPure f c θ ro2 :=
    exhaustTotalPure_mono f c θ hlh
  have hTro2pos : 0 < exhaustTotalPure f c θ ro2 := by linarith
  have hnum : 0 ≤ ro2 - θ := by linarith
  have key1 : (ro2 - θ) / exhaustTotalPure f c θ ro2 ≤
      (ro2 - θ) / exhaustTotalPure f c θ l := by
    rw [div_le_div_iff hTro2pos hTlpos]
    nlinarith
  have key2 : (ro2 - θ) / exhaustTotalPure f c θ l -
      (l - θ) / exhaustTotalPure f c θ l =
      (ro2 - l) / exhaustTotalPure f c θ l := by
    ring
  have key3 : (ro2 - l) / exhaustTotalPure f c θ l ≤ 1/10000 := by
    rw [div_le_iff hTlpos]
    unfold bisectTol at hwid
    nlinarith
  rw [abs_le]
  constructor
  · linarith [hrh]
  · linarith [hrl, key1, key2, key3]

/-- C2 counterexample: at a tiny flow on `compA` with target `2/25`, the
target lies strictly between the residual-O2 mole fractions at
stoichiometric and at 5× stoichiometric supply, yet the implied mole
fraction of the result misses the target by far more than 1e-4: the
absolute 1e-6 loop tolerance does not bound the mole-fraction error. -/
theorem c2_counterexample :
    (0:ℚ) < 1/1000000000 ∧
      exhaustRatio ((1/1000000000) / avgMW compA) compA
          (calculate_stoichiometric_o2 ((1/1000000000) / avgMW compA) compA)
          (calculate_stoichiometric_o2 ((1/1000000000) / avgMW compA) compA) <
        2/25 ∧
      (2/25 : ℚ) <
        exhaustRatio ((1/1000000000) / avgMW compA) compA
          (calculate_stoichiometric_o2 ((1/1000000000) / avgMW compA) compA)
          (calculate_stoichiometric_o2 ((1/1000000000) / avgMW compA) compA * 5) ∧
      isOkE (calculate_exhaust_gas (1/1000000000) compA (2/25) 1) = true ∧
      |impliedO2MoleFrac
          (resOr (calculate_exhaust_gas (1/1000000000) compA (2/25) 1)) -
        2/25| > 1/10000 := by
  have havg : avgMW compA = 98153/6000 := by
    norm_num [avgMW, sumSpecies, compA, MW]
  have hfval : (1/1000000000 : ℚ) / avgMW compA = 3/49076500000 := by
    rw [havg]
    norm_num
  have hθ : calculate_stoichiometric_o2 ((1/1000000000) / avgMW compA) compA =
      (1/1000000000) / avgMW compA := by
    simp [calculate_stoichiometric_o2, sumSpecies, compA, o2_requirement]
  have hTval : ∀ fq x : ℚ, exhaustTotalPure fq compA fq x =
      fq + x * (100/21) := by
    intro fq x
    unfold exhaustTotalPure airO2Ratio airN2Ratio
    simp [co2S, h2oS, so2S, compA, co2_production, h2o_production,
      so2_production, sumSpecies, o2_requirement]
    ring
  refine ⟨by norm_num, ?_, ?_, ?_, ?_⟩
  · unfold exhaustRatio
    rw [sub_self, zero_div]
    norm_num
  · unfold exhaustRatio
    rw [hθ, hTval, hfval]
    norm_num
  · rw [compA_tiny_ok]
    rfl
  · rw [compA_tiny_ok]
    simp only [resOr]
    rw [implied_eq_ratio]
    have hAv : calculate_stoichiometric_o2 ((1/1000000000) / avgMW compA)
        compA * 5 / airO2Ratio * airO2Ratio =
        calculate_stoichiometric_o2 ((1/1000000000) / avgMW compA) compA * 5 :=
      div_mul_cancel₀ _ (by norm_num [airO2Ratio])
    rw [hAv, hθ, hTval, hfval]
    norm_num
    rw [abs_of_pos (by norm_num)]
    norm_num

/-- Helper for C2's witness: on `compC` at unit molar flow the bracket is
below tolerance (theoretical O2 demand is only `2e-7 mol/s`), so the
pipeline value is explicit. -/
lemma compC_ok (t e : ℚ) :
    calculate_exhaust_gas (avgMW compC) compC t e =
      .ok (mkResult (avgMW compC / avgMW compC)
        (calculate_stoichiometric_o2 (avgMW compC / avgMW compC) compC *
          5 / airO2Ratio) compC) := by
  have havg : avgMW compC = 50032996409/3000000000 := by
    norm_num [avgMW, sumSpecies, compC, MW]
  have havgpos : (0:ℚ) < avgMW compC := by rw [havg]; norm_num
  have hf : calculate_molar_flow (avgMW compC) compC =
      .ok (avgMW compC / avgMW compC) :=
    molar_ok_iff.mpr ⟨ne_of_gt havgpos, rfl⟩
  have hf1 : avgMW compC / avgMW compC = 1 := div_self (ne_of_gt havgpos)
  have hθ : calculate_stoichiometric_o2 (avgMW compC / avgMW compC) compC =
      1/5000000 := by
    rw [hf1]
    simp [calculate_stoichiometric_o2, sumSpecies, compC, o2_requirement]
    norm_num
  have hb : bisect (avgMW compC / avgMW compC) compC
      (calculate_stoichiometric_o2 (avgMW compC / avgMW compC) compC) t
      (nIter (calculate_stoichiometric_o2 (avgMW compC / avgMW compC) compC *
        5 - calculate_stoichiometric_o2 (avgMW compC / avgMW compC) compC))
      (calculate_stoichiometric_o2 (avgMW compC / avgMW compC) compC)
      (calculate_stoichiometric_o2 (avgMW compC / avgMW compC) compC * 5) =
      .ok (calculate_stoichiometric_o2 (avgMW compC / avgMW compC) compC * 5) :=
    bisect_empty _ _ _ _ _ _ _ (by rw [hθ]; unfold bisectTol; norm_num)
  have hA : calculate_air_requirement (avgMW compC / avgMW compC) compC t =
      .ok (calculate_stoichiometric_o2 (avgMW compC / avgMW compC) compC * 5 /
        airO2Ratio) :=
    air_ok_iff.mpr ⟨_, hb, rfl⟩
  have htot : totalFlow (avgMW compC / avgMW compC)
      (calculate_stoichiometric_o2 (avgMW compC / avgMW compC) compC * 5 /
        airO2Ratio) compC ≠ 0 := by
    unfold totalFlow airO2Ratio airN2Ratio
    rw [hθ, hf1]
    simp [co2S, h2oS, so2S, compC, co2_production, h2o_production,
      so2_production, sumSpecies, calculate_stoichiometric_o2, o2_requirement]
    norm_num
  exact exhaust_ok_intro hf hA rfl rfl rfl htot

/-- Witness for the amended C2 on `compC`: all hypotheses hold concretely
and the implied mole fraction is within 1e-4 of the target. -/
theorem c2_target_achieved_at_scale_witness :
    (0:ℚ) < avgMW compC ∧
      1/100 ≤ exhaustTotalPure (avgMW compC / avgMW compC) compC
        (calculate_stoichiometric_o2 (avgMW compC / avgMW compC) compC)
        (calculate_stoichiometric_o2 (avgMW compC / avgMW compC) compC) ∧
      (0:ℚ) < 1/2500000 ∧
      (1/2500000 : ℚ) < exhaustRatio (avgMW compC / avgMW compC) compC
        (calculate_stoichiometric_o2 (avgMW compC / avgMW compC) compC)
        (calculate_stoichiometric_o2 (avgMW compC / avgMW compC) compC * 5) ∧
      |impliedO2MoleFrac
          (resOr (calculate_exhaust_gas (avgMW compC) compC (1/2500000) 1)) -
        1/2500000| ≤ 1/10000 := by
  have havg : avgMW compC = 50032996409/3000000000 := by
    norm_num [avgMW, sumSpecies, compC, MW]
  have havgpos : (0:ℚ) < avgMW compC := by rw [havg]; norm_num
  have hf1 : avgMW compC / avgMW compC = 1 := div_self (ne_of_gt havgpos)
  have hθ : calculate_stoichiometric_o2 (avgMW compC / avgMW compC) compC =
      1/5000000 := by
    rw [hf1]
    simp [calculate_stoichiometric_o2, sumSpecies, compC, o2_requirement]
    norm_num
  have hTval : ∀ x : ℚ, exhaustTotalPure (avgMW compC / avgMW compC) compC
      (1/5000000) x =
      (1/10000000 : ℚ) + (1/3 + 2/10000000) + 1/3 + 9999997/30000000 -
        1/5000000 + x * (100/21) := by
    intro x
    rw [hf1]
    unfold exhaustTotalPure airO2Ratio airN2Ratio
    simp [co2S, h2oS, so2S, compC, co2_production, h2o_production,
      so2_production, sumSpecies, o2_requirement]
    ring
  refine ⟨havgpos, ?_, by norm_num, ?_, ?_⟩
  · rw [hθ, hTval]
    norm_num
  · unfold exhaustRatio
    rw [hθ, hTval]
    norm_num
  · exact c2_target_achieved_at_scale (avgMW compC) (1/2500000) 1 compC _
      havgpos (fun s _ => by cases s <;> norm_num [compC])
      (by rw [hθ, hTval]; norm_num)
      (by norm_num)
      (by unfold exhaustRatio; rw [hθ, hTval]; norm_num)
      (by rw [compC_ok]; simp [resOr])

end Combustion
